import Mathlib

/-!
Verification of the aVM execution core against its specification.

This file gives a shallow embedding of the parts of the repository that the
checked claims are about: the transaction-receipt codec (`types/receipt.rs`),
the chain state transfer (`state/state.rs`), the kernel syscall layer
(`kernel/syscall/*.rs`), the trap dispatcher (`kernel/trap/mod.rs`), the
bundle-result bookkeeping (`kernel/bundle/result.rs`), the task table
(`kernel/global.rs`) and the tracing JIT (`vm/jit/mod.rs`, `vm/jit/trace.rs`).

Machine integers are modelled as `Nat`; wrapping arithmetic is written with an
explicit `% 2 ^ 32`.  Code that can panic is modelled with `Option`.
Functions of the repository that live in crates not present under `src/`
(the `types` result/transaction declarations, the Sv32 page walker, the
instruction decoder and the cranelift code generator) are either modelled
from the spec (marked as such) or taken as oracle parameters that the
theorems quantify over.
-/

namespace AVM

/-- Width of a 32-bit machine word. -/
def U32MOD : Nat := 2 ^ 32

/-- Little-endian byte serialization: `toLEBytes w n` is the `w`-byte
little-endian encoding of `n` (mirrors Rust `to_le_bytes`, truncating to the
register width). -/
def toLEBytes : Nat → Nat → List Nat
  | 0, _ => []
  | w + 1, n => (n % 256) :: toLEBytes w (n / 256)

/-- Little-endian byte deserialization (mirrors Rust `from_le_bytes`). -/
def fromLEBytes : List Nat → Nat
  | [] => 0
  | b :: bs => b + 256 * fromLEBytes bs

/-- From `types/result.rs` (crate file not under `src/`).
Modelled from the spec: the fixed capacity of a program result's payload
buffer; only the facts `RESULT_SIZE = 9 + RESULT_DATA_SIZE` and the use of
`RESULT_DATA_SIZE` as the `data` array length are relied on. -/
def RESULT_DATA_SIZE : Nat := 256

/-- From `types/result.rs` (crate file not under `src/`).
Modelled from the spec: result record `{success, error_code, data_len, data}`
with `data` a fixed `RESULT_DATA_SIZE`-byte buffer, as read back by
`read_task_result` in `kernel/trap/mod.rs` and serialized by
`TransactionReceipt::encode`. -/
structure VmResult where
  success : Bool
  error_code : Nat
  data_len : Nat
  data : List Nat
deriving DecidableEq

/-- From `types/address.rs` (crate file not under `src/`).
Modelled from the spec: a 20-byte account address. -/
structure Address where
  bytes : List Nat
deriving DecidableEq

/-- `ADDRESS_LEN` from the `types` crate: addresses are 20 bytes. -/
def ADDRESS_LEN : Nat := 20

/-- From `types/transaction.rs` (crate file not under `src/`).
Modelled from the spec: the transaction kind tag, one byte on the wire; the
variants `CreateAccount` and `ProgramCall` are the ones named by the code
under `src/`. -/
inductive TransactionType
  | CreateAccount
  | ProgramCall
deriving DecidableEq

/-- The `tx_type as u8` cast used by `TransactionReceipt::encode`. -/
def TransactionType.toU8 : TransactionType → Nat
  | .CreateAccount => 0
  | .ProgramCall => 1

/-- Modelled from the spec: `TransactionType::from_u8`, the partial inverse of
the `as u8` cast used when decoding a receipt. -/
def TransactionType.from_u8 (b : Nat) : Option TransactionType :=
  if b = 0 then some .CreateAccount
  else if b = 1 then some .ProgramCall
  else none

/-- From `types/transaction.rs` (crate file not under `src/`).
Modelled from the spec: the transaction record serialized into a receipt.
`toAddr`/`fromAddr` stand for the Rust fields `to`/`from`. -/
structure Transaction where
  tx_type : TransactionType
  toAddr : Address
  fromAddr : Address
  data : List Nat
  value : Nat
  nonce : Nat
deriving DecidableEq

/-- `TransactionReceipt` from `types/receipt.rs`. -/
structure TransactionReceipt where
  tx : Transaction
  result : VmResult
  events : List (List Nat)
deriving DecidableEq

/-- `TransactionReceipt::encode` from `types/receipt.rs`: flat little-endian
serialization of a receipt. -/
def TransactionReceipt.encode (r : TransactionReceipt) : List Nat :=
  [r.tx.tx_type.toU8]
  ++ r.tx.toAddr.bytes
  ++ r.tx.fromAddr.bytes
  ++ toLEBytes 4 r.tx.data.length
  ++ r.tx.data
  ++ toLEBytes 8 r.tx.value
  ++ toLEBytes 8 r.tx.nonce
  ++ [if r.result.success then 1 else 0]
  ++ toLEBytes 4 r.result.error_code
  ++ toLEBytes 4 r.result.data_len
  ++ r.result.data.take (min r.result.data_len r.result.data.length)
  ++ toLEBytes 4 r.events.length
  ++ r.events.foldr (fun e acc => toLEBytes 4 e.length ++ e ++ acc) []

/-- The bounds-checked cursor reader closure used by
`TransactionReceipt::decode`: returns the requested slice and the advanced
cursor, or `none` when the read would run past the buffer. -/
def readSlice (bytes : List Nat) (cursor len : Nat) : Option (List Nat × Nat) :=
  if cursor + len > bytes.length then none
  else some ((bytes.drop cursor).take len, cursor + len)

/-- The event-decoding loop at the end of `TransactionReceipt::decode`. -/
def decodeEvents (bytes : List Nat) : Nat → Nat → Option (List (List Nat) × Nat)
  | cursor, 0 => some ([], cursor)
  | cursor, n + 1 => do
      let (lb, c) ← readSlice bytes cursor 4
      let len := fromLEBytes lb
      let (e, c) ← readSlice bytes c len
      let (rest, c) ← decodeEvents bytes c n
      some (e :: rest, c)

/-- The transaction-field reads at the head of `TransactionReceipt::decode`
(tx type tag, both addresses, data, value, nonce). -/
def decodeTxPart (encoded : List Nat) : Option (Transaction × Nat) := do
  let (t0s, c) ← readSlice encoded 0 1
  let t0 ← t0s.head?
  let tx_type ← TransactionType.from_u8 t0
  let (toB, c) ← readSlice encoded c 20
  let (frB, c) ← readSlice encoded c 20
  let (dlB, c) ← readSlice encoded c 4
  let (data, c) ← readSlice encoded c (fromLEBytes dlB)
  let (vB, c) ← readSlice encoded c 8
  let (nB, c) ← readSlice encoded c 8
  some (⟨tx_type, ⟨toB⟩, ⟨frB⟩, data, fromLEBytes vB, fromLEBytes nB⟩, c)

/-- The result-field reads in the middle of `TransactionReceipt::decode`,
including the clamp of `data_len` to `RESULT_DATA_SIZE` and the zero-filled
fixed-size data buffer. -/
def decodeResultPart (encoded : List Nat) (cursor : Nat) :
    Option (VmResult × Nat) := do
  let (sB, c) ← readSlice encoded cursor 1
  let s0 ← sB.head?
  let (ecB, c) ← readSlice encoded c 4
  let (rdlB, c) ← readSlice encoded c 4
  let result_data_len := fromLEBytes rdlB
  let (result_data, c) ← readSlice encoded c result_data_len
  let copy_len := min result_data_len RESULT_DATA_SIZE
  let data_buf := result_data.take copy_len
      ++ List.replicate (RESULT_DATA_SIZE - copy_len) 0
  let dlen := if result_data_len > RESULT_DATA_SIZE then RESULT_DATA_SIZE
      else result_data_len
  some (⟨decide (s0 ≠ 0), fromLEBytes ecB, dlen, data_buf⟩, c)

/-- `TransactionReceipt::decode` from `types/receipt.rs`: parses a receipt
and returns it together with the number of bytes consumed. -/
def TransactionReceipt.decode (encoded : List Nat) :
    Option (TransactionReceipt × Nat) := do
  let (tx, c) ← decodeTxPart encoded
  let (res, c) ← decodeResultPart encoded c
  let (evB, c) ← readSlice encoded c 4
  let (events, c) ← decodeEvents encoded c (fromLEBytes evB)
  some (⟨tx, res, events⟩, c)

/-- Serialized transaction segment of `TransactionReceipt::encode`. -/
def txBytes (r : TransactionReceipt) : List Nat :=
  [r.tx.tx_type.toU8]
  ++ r.tx.toAddr.bytes
  ++ r.tx.fromAddr.bytes
  ++ toLEBytes 4 r.tx.data.length
  ++ r.tx.data
  ++ toLEBytes 8 r.tx.value
  ++ toLEBytes 8 r.tx.nonce

/-- Serialized result segment of `TransactionReceipt::encode`. -/
def resultBytes (r : TransactionReceipt) : List Nat :=
  [if r.result.success then 1 else 0]
  ++ toLEBytes 4 r.result.error_code
  ++ toLEBytes 4 r.result.data_len
  ++ r.result.data.take (min r.result.data_len r.result.data.length)

/-- Serialized events segment of `TransactionReceipt::encode`. -/
def eventsBytes (events : List (List Nat)) : List Nat :=
  events.foldr (fun e acc => toLEBytes 4 e.length ++ e ++ acc) []

/-- Receipt field well-formedness as implied by the Rust types: fixed-width
addresses and counters in range, and the fixed-size result buffer. -/
def ReceiptWF (r : TransactionReceipt) : Prop :=
  r.tx.toAddr.bytes.length = ADDRESS_LEN ∧
  r.tx.fromAddr.bytes.length = ADDRESS_LEN ∧
  r.tx.data.length < 2 ^ 32 ∧
  r.tx.value < 2 ^ 64 ∧
  r.tx.nonce < 2 ^ 64 ∧
  r.result.error_code < 2 ^ 32 ∧
  r.result.data_len ≤ RESULT_DATA_SIZE ∧
  r.result.data.length = RESULT_DATA_SIZE ∧
  r.events.length < 2 ^ 32 ∧
  ∀ e ∈ r.events, e.length < 2 ^ 32

instance (r : TransactionReceipt) : Decidable (ReceiptWF r) := by
  unfold ReceiptWF
  infer_instance

def cexReceipt : TransactionReceipt :=
  { tx := { tx_type := .ProgramCall,
            toAddr := ⟨List.replicate 20 0⟩, fromAddr := ⟨List.replicate 20 0⟩,
            data := [], value := 0, nonce := 0 },
    result := { success := true, error_code := 0, data_len := 0,
                data := 1 :: List.replicate 255 0 },
    events := [] }

def wfReceipt : TransactionReceipt :=
  { tx := { tx_type := .CreateAccount,
            toAddr := ⟨List.replicate 20 7⟩, fromAddr := ⟨List.replicate 20 9⟩,
            data := [1, 2, 3], value := 5, nonce := 1 },
    result := { success := true, error_code := 0, data_len := 2,
                data := 4 :: 5 :: List.replicate 254 0 },
    events := [[10, 11], []] }

/-! ### Chain state and `State::transfer` (claim C9) -/

/-- From `state/account.rs` (crate file not under `src/`).
Modelled from the spec and from the default-account construction in
`State::get_account_mut`: `{nonce, balance, code, is_contract, storage}`. -/
structure Account where
  nonce : Nat
  balance : Nat
  code : List Nat
  is_contract : Bool
  storage : List (String × List Nat)
deriving DecidableEq

/-- `State` from `state/state.rs`: the account map, modelled as a function
from addresses to optional accounts (the Rust `BTreeMap` lookup). -/
structure State where
  accounts : Address → Option Account

/-- `State::get_account`. -/
def State.get_account (s : State) (addr : Address) : Option Account :=
  s.accounts addr

/-- `State::balance_of`: current balance, `0` for a missing account. -/
def State.balance_of (s : State) (addr : Address) : Nat :=
  match s.accounts addr with
  | some acc => acc.balance
  | none => 0

/-- The default account inserted by `State::get_account_mut` when the address
has no account yet. -/
def defaultAccount : Account :=
  { nonce := 0, balance := 0, code := [], is_contract := false, storage := [] }

/-- `State::get_account_mut` followed by a balance assignment, the only
mutation `State::transfer` performs. -/
def State.set_balance (s : State) (addr : Address) (b : Nat) : State :=
  ⟨fun a =>
    if a = addr then
      some { ((s.accounts addr).getD defaultAccount) with balance := b }
    else s.accounts a⟩

/-- `u128::checked_add` on in-range values. -/
def checked_add_u128 (a b : Nat) : Option Nat :=
  if a + b < 2 ^ 128 then some (a + b) else none

/-- `State::transfer` from `state/state.rs`: moves native balance, returning
`false` (and leaving the state untouched) on a missing source account,
insufficient funds, or destination overflow; a self-transfer with sufficient
funds succeeds without touching any balance. -/
def State.transfer (s : State) (fromA toA : Address) (value : Nat) :
    Bool × State :=
  let amount := value
  match s.get_account fromA with
  | none => (false, s)
  | some fromAcc =>
    let from_balance := fromAcc.balance
    if from_balance < amount then (false, s)
    else if fromA = toA then (true, s)
    else
      match checked_add_u128 (s.balance_of toA) amount with
      | none => (false, s)
      | some new_to_balance =>
        let s1 := s.set_balance fromA (from_balance - amount)
        let s2 := s1.set_balance toA new_to_balance
        (true, s2)

/-- The address used by the C9 counterexample. -/
def cexAddr : Address := ⟨List.replicate 20 1⟩

/-- The account used by the C9 counterexample and witness: maximal `u128`
balance. -/
def cexAcc : Account :=
  { nonce := 0, balance := 2 ^ 128 - 1, code := [], is_contract := false,
    storage := [] }

/-- The state used by the C9 counterexample: one account holding the maximal
`u128` balance. -/
def cexState : State :=
  ⟨fun a => if a = cexAddr then some cexAcc else none⟩

/-- The destination address used by the C9 witness. -/
def witAddr : Address := ⟨List.replicate 20 2⟩

/-! ### Kernel data model: tasks, kernel state, MMU oracles -/

/-- `AddressSpace` from `kernel/task/task.rs` (file not under `src/`).
Modelled from the spec: `{root PPN, ASID, va_base, va_len}`. -/
structure AddressSpace where
  root_ppn : Nat
  asid : Nat
  va_base : Nat
  va_len : Nat
deriving DecidableEq

/-- `TrapFrame` from `kernel/task/task.rs` (file not under `src/`).
Modelled from the spec: 32 saved registers `x0..x31` plus the saved pc. -/
structure TrapFrame where
  regs : Fin 32 → Nat
  pc : Nat

/-- `Task` from `kernel/task/task.rs` (file not under `src/`).
Modelled from the spec and the field uses in `kernel/trap/mod.rs`,
`kernel/syscall/alloc.rs` and `kernel/syscall/call_program.rs`:
`{addr_space, tf, heap_ptr, caller_task_id, last_result}`. -/
structure Task where
  addr_space : AddressSpace
  tf : TrapFrame
  heap_ptr : Nat
  caller_task_id : Option Nat
  last_result : Option VmResult

/-- Oracle view of `kernel/memory/page_allocator.rs` (file not under `src/`):
the Sv32 walk (`translate`), the direct-map physical byte read behind
`read_user_bytes`'s `copy_nonoverlapping`, and `mmu::copy`.  Theorems
quantify over this structure. -/
structure Mmu where
  translate : Nat → Nat → Option Nat
  phys : Nat → Nat
  copy : Nat → Nat → List Nat → Bool

/-- `SV32_PAGE_SIZE` from the `types` crate: 4 KiB pages. -/
def SV32_PAGE_SIZE : Nat := 4096

/-- `SV32_DIRECT_MAP_BASE` from the `types` crate (file not under `src/`).
The constant only offsets the physical-read oracle, so its value is
irrelevant to every theorem; it is kept to mirror the source expression. -/
def SV32_DIRECT_MAP_BASE : Nat := 0

/-- Kernel constants from `kernel/global.rs`. -/
def MAX_TASKS : Nat := 16

/-- Slot index reserved for the kernel task (`kernel/global.rs`). -/
def KERNEL_TASK_SLOT : Nat := 0

/-- `MAX_INPUT_LEN` from `kernel/global.rs`. -/
def MAX_INPUT_LEN : Nat := 1024

/-- `RESULT_ADDR` from `kernel/global.rs`: user VA of the result header. -/
def RESULT_ADDR : Nat := 0x100

/-- `TO_PTR_ADDR` from `kernel/global.rs`. -/
def TO_PTR_ADDR : Nat := 0x120

/-- `MAX_RESULT_SIZE = types::result::RESULT_SIZE`: header (9 bytes) plus the
payload buffer. -/
def MAX_RESULT_SIZE : Nat := 9 + RESULT_DATA_SIZE

/-- The mutable kernel globals of `kernel/global.rs` that the claims touch:
task table, current task and transaction indices, `LAST_COMPLETED_TASK`,
the receipts buffer, and the MMU's current-root shadow. -/
structure KState where
  tasks : List Task
  current_task : Nat
  current_tx : Nat
  last_completed_task : Option Nat
  receipts : Option (List TransactionReceipt)
  current_root : Nat

/-- `TaskList::push` from `kernel/global.rs`: rejects the task when 16 tasks
are already stored, otherwise appends it. -/
def TaskList.push (tasks : List Task) (t : Task) : Except Task (List Task) :=
  if tasks.length ≥ MAX_TASKS then .error t
  else .ok (tasks ++ [t])

/-- The while-loop body of `read_user_bytes` (`kernel/syscall/storage.rs`).
`fuel` bounds the iteration count; the caller passes `fuel = remaining`,
which suffices because every iteration copies at least one byte, so the
`fuel = 0` case is only reached with `remaining = 0`. -/
def rub_go (m : Mmu) (root : Nat) : Nat → Nat → Nat → Option (List Nat)
  | 0, _, _ => some []
  | fuel + 1, va, remaining =>
    if remaining = 0 then some []
    else
      match m.translate root va with
      | none => none
      | some phys =>
        let page_off := va % SV32_PAGE_SIZE
        let to_copy := min remaining (SV32_PAGE_SIZE - page_off)
        let chunk := (List.range to_copy).map
          (fun i => m.phys (SV32_DIRECT_MAP_BASE + phys + i))
        match rub_go m root fuel ((va + to_copy) % U32MOD) (remaining - to_copy) with
        | none => none
        | some rest => some (chunk ++ rest)

/-- `read_user_bytes` from `kernel/syscall/storage.rs`: reads `len` bytes of
user memory page by page through the MMU walk; `none` on any translation
failure; an empty buffer for `len = 0` without touching the MMU. -/
def read_user_bytes (m : Mmu) (root ptr len : Nat) : Option (List Nat) :=
  if len = 0 then some []
  else rub_go m root len ptr len

/-- The page-start VAs at which `read_user_bytes` consults the MMU walk,
computed by the same page arithmetic as the loop. -/
def rub_vas : Nat → Nat → Nat → List Nat
  | 0, _, _ => []
  | fuel + 1, va, remaining =>
    if remaining = 0 then []
    else
      let page_off := va % SV32_PAGE_SIZE
      let to_copy := min remaining (SV32_PAGE_SIZE - page_off)
      va :: rub_vas fuel ((va + to_copy) % U32MOD) (remaining - to_copy)

/-- `u32::checked_add`. -/
def checked_add_u32 (a b : Nat) : Option Nat :=
  if a + b < 2 ^ 32 then some (a + b) else none

/-- `u32::saturating_add`. -/
def sat_add_u32 (a b : Nat) : Nat :=
  min (a + b) (2 ^ 32 - 1)

/-- Bitwise complement on `u32` (`!mask` in `alloc_in_task`): numerically
`2^32 - 1 - x` for any in-range `x`. -/
def complement32 (x : Nat) : Nat := 2 ^ 32 - 1 - x

/-- `alloc_in_task` from `kernel/syscall/alloc.rs`: bump allocation inside
the task's VA window.  Returns the aligned address and the task with the
advanced heap pointer, or `none` for a zero size, a non-power-of-two
alignment, arithmetic overflow, or a range outside the window. -/
def alloc_in_task (task : Task) (size align : Nat) : Option (Nat × Task) :=
  if size = 0 then none
  else if align = 0 ∨ align &&& (align - 1) ≠ 0 then none
  else
    let mask := align - 1
    match checked_add_u32 task.heap_ptr mask with
    | none => none
    | some addr =>
      let start := addr &&& complement32 mask
      match checked_add_u32 start size with
      | none => none
      | some stop =>
        let window_base := task.addr_space.va_base
        let window_limit := sat_add_u32 window_base task.addr_space.va_len
        if start < window_base ∨ stop > window_limit then none
        else some (start, { task with heap_ptr := stop })

/-- `sys_alloc` from `kernel/syscall/alloc.rs`: the alloc syscall (ID 7).
`none` models the kernel-task panic; otherwise the returned word is the
allocated VA or `0` on failure. -/
def sys_alloc (args : Fin 6 → Nat) (st : KState) : Option (Nat × KState) :=
  let size := args 0
  let align := args 1
  if st.current_task = KERNEL_TASK_SLOT then none
  else
    match st.tasks[st.current_task]? with
    | none => some (0, st)
    | some task =>
      match alloc_in_task task size align with
      | none => some (0, st)
      | some (addr, task') =>
        some (addr, { st with tasks := st.tasks.set st.current_task task' })

/-- `sys_dealloc` from `kernel/syscall/alloc.rs`: a no-op that panics for the
kernel task. -/
def sys_dealloc (_args : Fin 6 → Nat) (st : KState) : Option (Nat × KState) :=
  if st.current_task = KERNEL_TASK_SLOT then none
  else some (0, st)

/-- The functional specification of upward alignment: the candidate the claim
describes, `align * ⌈x / align⌉`. -/
def alignUp (align x : Nat) : Nat :=
  align * ((x + (align - 1)) / align)

/-- The kernel-slot task used by concrete witnesses. -/
def witKTask : Task :=
  { addr_space := { root_ppn := 1, asid := 0, va_base := 0, va_len := 2 ^ 22 },
    tf := { regs := fun _ => 0, pc := 0 },
    heap_ptr := 0, caller_task_id := none, last_result := none }

/-- The user task used by the C7 witness. -/
def witTask : Task :=
  { addr_space := { root_ppn := 2, asid := 1, va_base := 0, va_len := 4096 },
    tf := { regs := fun _ => 0, pc := 0 },
    heap_ptr := 5, caller_task_id := some 0, last_result := none }

/-- The kernel state used by the C7 witness. -/
def witState : KState :=
  { tasks := [witKTask, witTask], current_task := 1, current_tx := 0,
    last_completed_task := none, receipts := none, current_root := 1 }

/-- The argument words used by the C7 witness: size 16, align 8. -/
def witArgs : Fin 6 → Nat := fun i => if i = 0 then 16 else if i = 1 then 8 else 0

/-! ### Syscall layer and trap dispatcher -/

/-- Syscall IDs from `clibc/src/syscalls.rs`. -/
def SYSCALL_STORAGE_GET : Nat := 1

/-- Syscall ID 2 (`clibc/src/syscalls.rs`). -/
def SYSCALL_STORAGE_SET : Nat := 2

/-- Syscall ID 3 (`clibc/src/syscalls.rs`). -/
def SYSCALL_PANIC : Nat := 3

/-- Syscall ID 5 (`clibc/src/syscalls.rs`). -/
def SYSCALL_CALL_PROGRAM : Nat := 5

/-- Syscall ID 6 (`clibc/src/syscalls.rs`). -/
def SYSCALL_FIRE_EVENT : Nat := 6

/-- Syscall ID 7 (`clibc/src/syscalls.rs`). -/
def SYSCALL_ALLOC : Nat := 7

/-- Syscall ID 8 (`clibc/src/syscalls.rs`). -/
def SYSCALL_DEALLOC : Nat := 8

/-- Syscall ID 9 (`clibc/src/syscalls.rs`). -/
def SYSCALL_TRANSFER : Nat := 9

/-- Syscall ID 10 (`clibc/src/syscalls.rs`). -/
def SYSCALL_BALANCE : Nat := 10

/-- Syscall ID 214 (`clibc/src/syscalls.rs`). -/
def SYSCALL_BRK : Nat := 214

/-- `read_task_result` from `kernel/trap/mod.rs`: reads the result header at
`RESULT_ADDR` of the task's window and parses `{success, error_code,
data_len, data}` with `data_len` clamped to `RESULT_DATA_SIZE`. -/
def read_task_result (m : Mmu) (task : Task) : Option VmResult :=
  match read_user_bytes m task.addr_space.root_ppn RESULT_ADDR MAX_RESULT_SIZE with
  | none => none
  | some result_bytes =>
    if result_bytes.length < 9 then none
    else
      let error_code := fromLEBytes ((result_bytes.drop 1).take 4)
      let data_len := min (fromLEBytes ((result_bytes.drop 5).take 4))
        RESULT_DATA_SIZE
      if result_bytes.length < 9 + data_len then none
      else
        let data := (result_bytes.drop 9).take data_len
          ++ List.replicate (RESULT_DATA_SIZE - data_len) 0
        some ⟨decide (result_bytes.getD 0 0 ≠ 0), error_code, data_len, data⟩

/-- `write_result_to_caller` from `kernel/trap/mod.rs`: allocates a result
buffer in the caller's window, serializes the result into it and copies it
through the MMU.  The returned task carries the caller's advanced heap
pointer; note the heap pointer stays advanced even when the copy fails. -/
def write_result_to_caller (m : Mmu) (caller : Task) (result : VmResult) :
    Option Nat × Task :=
  match alloc_in_task caller MAX_RESULT_SIZE 4 with
  | none => (none, caller)
  | some (addr, caller') =>
    let data_len := min result.data_len RESULT_DATA_SIZE
    let buf := [if result.success then 1 else 0]
      ++ toLEBytes 4 result.error_code ++ toLEBytes 4 result.data_len
      ++ (result.data.take data_len
        ++ List.replicate (MAX_RESULT_SIZE - 9 - data_len) 0)
    if m.copy caller'.addr_space.root_ppn addr buf then (some addr, caller')
    else (none, caller')

/-- Oracles for the syscall handlers whose bodies depend on state and MMU
pieces outside the claims (storage, panic, events, balances), plus `prep`,
the composite of `with_program_image` and `prep_program_task` used by
`sys_call_program`.  `none` models a handler panic. -/
structure SyscallImpl where
  storage_get : (Fin 6 → Nat) → KState → Option (Nat × KState)
  storage_set : (Fin 6 → Nat) → KState → Option (Nat × KState)
  panic_h : (Fin 6 → Nat) → KState → Option (Nat × KState)
  fire_event : (Fin 6 → Nat) → KState → Option (Nat × KState)
  transfer_h : (Fin 6 → Nat) → KState → Option (Nat × KState)
  balance_h : (Fin 6 → Nat) → KState → Option (Nat × KState)
  prep : Address → Address → List Nat → Option Task

/-- `current_task_root_ppn` from `kernel/syscall/storage.rs`. -/
def current_task_root_ppn (st : KState) : Option Nat :=
  match st.tasks[st.current_task]? with
  | some task => some task.addr_space.root_ppn
  | none => none

/-- `caller_address_matches` from `kernel/syscall/storage.rs`: the kernel task
always matches; a user task must present the address stored at
`TO_PTR_ADDR` of its own window. -/
def caller_address_matches (m : Mmu) (st : KState) (root_ppn : Nat)
    (address : Address) : Bool :=
  if st.current_task = KERNEL_TASK_SLOT then true
  else
    match read_user_bytes m root_ppn TO_PTR_ADDR ADDRESS_LEN with
    | none => false
    | some caller_bytes =>
      if caller_bytes.length ≠ ADDRESS_LEN then false
      else decide (Address.mk caller_bytes = address)

/-- `run_task` from `kernel/task/run.rs`, restricted to its effects on the
modelled state: an invalid slot returns without switching; otherwise the
current task index and the MMU's current-root shadow move to the target
task and control enters the task (the returned flag). -/
def run_task (st : KState) (task_idx : Nat) : KState × Bool :=
  match st.tasks[task_idx]? with
  | none => (st, false)
  | some task =>
    ({ st with
        current_task := task_idx,
        current_root := task.addr_space.root_ppn }, true)

/-- `sys_call_program` from `kernel/syscall/call_program.rs`.  The result is
`(returned word, new state, launched child slot if control was handed
over)`.  Every failure is a soft `0`; on success the caller's trap frame is
saved with `pc` set to the `ecall` pc plus 4 before the one-way switch into
the child. -/
def sys_call_program (impl : SyscallImpl) (m : Mmu) (args : Fin 6 → Nat)
    (regs : Fin 33 → Nat) (st : KState) : Nat × KState × Option Nat :=
  let input_len := args 3
  if input_len > MAX_INPUT_LEN then (0, st, none)
  else
    match current_task_root_ppn st with
    | none => (0, st, none)
    | some root_ppn =>
      match read_user_bytes m root_ppn (args 0) ADDRESS_LEN with
      | none => (0, st, none)
      | some to_bytes =>
      match read_user_bytes m root_ppn (args 1) ADDRESS_LEN with
      | none => (0, st, none)
      | some from_bytes =>
      match read_user_bytes m root_ppn (args 2) input_len with
      | none => (0, st, none)
      | some input =>
      if to_bytes.length ≠ ADDRESS_LEN ∨ from_bytes.length ≠ ADDRESS_LEN then
        (0, st, none)
      else if ¬ caller_address_matches m st root_ppn (Address.mk from_bytes) then
        (0, st, none)
      else
        match impl.prep (Address.mk to_bytes) (Address.mk from_bytes) input with
        | none => (0, st, none)
        | some task =>
          match TaskList.push st.tasks task with
          | .error _ => (0, st, none)
          | .ok tasks' =>
            let task_idx := tasks'.length - 1
            let caller_idx := st.current_task
            match tasks'[caller_idx]? with
            | none => (0, { st with tasks := tasks' }, none)
            | some caller_task =>
              let caller_task' := { caller_task with
                tf := { regs := fun i => regs i.castSucc,
                        pc := (regs 32 + 4) % U32MOD } }
              let st1 := { st with tasks := tasks'.set caller_idx caller_task' }
              let (st2, entered) := run_task st1 task_idx
              (0, st2, if entered then some task_idx else none)

/-- `dispatch_syscall` from `kernel/syscall/mod.rs`: the ID table; an ID not
in the table returns `0` with no effect. -/
def dispatch_syscall (impl : SyscallImpl) (m : Mmu) (call_id : Nat)
    (args : Fin 6 → Nat) (regs : Fin 33 → Nat) (st : KState) :
    Option (Nat × KState) :=
  if call_id = SYSCALL_STORAGE_GET then impl.storage_get args st
  else if call_id = SYSCALL_STORAGE_SET then impl.storage_set args st
  else if call_id = SYSCALL_PANIC then impl.panic_h args st
  else if call_id = SYSCALL_CALL_PROGRAM then
    match sys_call_program impl m args regs st with
    | (ret, st', _) => some (ret, st')
  else if call_id = SYSCALL_FIRE_EVENT then impl.fire_event args st
  else if call_id = SYSCALL_ALLOC then sys_alloc args st
  else if call_id = SYSCALL_DEALLOC then sys_dealloc args st
  else if call_id = SYSCALL_TRANSFER then impl.transfer_h args st
  else if call_id = SYSCALL_BALANCE then impl.balance_h args st
  else if call_id = SYSCALL_BRK then some (0, st)
  else some (0, st)

/-- What `handle_trap` returns to the assembly stubs, plus the pieces of
machine state it rewrites: the saved register block, the kernel globals and
the sstatus.SPP bit. -/
structure TrapOut where
  regs : Fin 33 → Nat
  st : KState
  spp : Bool
  ret_sp : Nat
  ret_kind : Nat

/-- The breakpoint (`scause = 3`) arm of `handle_trap`: task completion.
Saves the completed user task's frame and result, picks the recorded caller
(kernel slot by default), records `last_completed_task` only for returns to
the kernel slot, promotes the result pointer into the caller's `a0` for a
user caller, restores the caller's registers, pc (saved `ra` for the kernel
task, saved trap-frame `pc` otherwise) and address-space root.  `none`
models the "caller task missing" panic. -/
def handle_breakpoint (m : Mmu) (_spp : Bool) (regs : Fin 33 → Nat)
    (st : KState) : Option TrapOut :=
  let current := st.current_task
  let step1 : List Task × Nat × Option VmResult × Option Nat :=
    if current ≠ KERNEL_TASK_SLOT then
      match st.tasks[current]? with
      | some task =>
        let resOpt := read_task_result m task
        let task' := { task with
          last_result := match resOpt with
            | some r => some r
            | none => task.last_result,
          tf := { regs := fun i => regs i.castSucc, pc := regs 32 } }
        let caller_idx := task.caller_task_id.getD KERNEL_TASK_SLOT
        let last' := if caller_idx = KERNEL_TASK_SLOT then some current
          else st.last_completed_task
        (st.tasks.set current task', caller_idx, resOpt, last')
      | none => (st.tasks, KERNEL_TASK_SLOT, none, st.last_completed_task)
    else (st.tasks, KERNEL_TASK_SLOT, none, st.last_completed_task)
  match step1 with
  | (tasks1, caller_idx, result_for_caller, last') =>
    match tasks1[caller_idx]? with
    | none => none
    | some caller_task =>
      let caller_task2 :=
        if caller_idx ≠ KERNEL_TASK_SLOT then
          let wr : Nat × Task :=
            match result_for_caller with
            | some r =>
              match write_result_to_caller m caller_task r with
              | (some addr, ct) => (addr, ct)
              | (none, ct) => (0, ct)
            | none => (0, caller_task)
          { wr.2 with tf := { wr.2.tf with
              regs := Function.update wr.2.tf.regs 10 wr.1 } }
        else caller_task
      let pcv := if caller_idx = KERNEL_TASK_SLOT then caller_task2.tf.regs 1
        else caller_task2.tf.pc
      let regs' : Fin 33 → Nat := fun i =>
        if h : (i : Nat) < 32 then caller_task2.tf.regs ⟨i, h⟩ else pcv
      some
        { regs := regs'
          st := { st with
            tasks := tasks1.set caller_idx caller_task2,
            current_task := caller_idx,
            last_completed_task := last',
            current_root := caller_task2.addr_space.root_ppn }
          spp := decide (caller_idx = KERNEL_TASK_SLOT)
          ret_sp := caller_task2.tf.regs 2
          ret_kind := if caller_idx = KERNEL_TASK_SLOT then 1 else 0 }

/-- `handle_trap` from `kernel/trap/mod.rs`: interrupts panic (`none`);
`scause` 8/9 dispatch a syscall with ID from saved `x17` and arguments from
saved `x11..x16`, write the return into saved `x10` and advance the saved
pc by 4; `scause` 3 completes a task; any other cause is logged and leaves
everything unchanged. -/
def handle_trap (impl : SyscallImpl) (m : Mmu) (scause : Nat) (spp : Bool)
    (regs : Fin 33 → Nat) (st : KState) : Option TrapOut :=
  if scause >>> 31 ≠ 0 then none
  else
    let code := scause % 4096
    if code = 8 ∨ code = 9 then
      let args : Fin 6 → Nat := fun i => regs ⟨11 + i.val, by omega⟩
      let call_id := regs 17
      match dispatch_syscall impl m call_id args regs st with
      | none => none
      | some (ret, st') =>
        let regs' := Function.update
          (Function.update regs 10 ret) 32 ((regs 32 + 4) % U32MOD)
        some { regs := regs', st := st', spp := spp, ret_sp := regs' 2,
               ret_kind := 0 }
    else if code = 3 then
      handle_breakpoint m spp regs st
    else
      some { regs := regs, st := st, spp := spp, ret_sp := regs 2,
             ret_kind := if spp then 1 else 0 }

/-- `update_receipt_from_task` from `kernel/bundle/result.rs`: takes (and so
always clears) `LAST_COMPLETED_TASK`, and when it held a task with a
recorded result and the current transaction has a receipt, stores the
result into that receipt. -/
def update_receipt_from_task (st : KState) : KState :=
  let task_idx := st.last_completed_task
  let st1 := { st with last_completed_task := none }
  match task_idx with
  | none => st1
  | some idx =>
    match st1.tasks[idx]? with
    | none => st1
    | some task =>
      match task.last_result with
      | none => st1
      | some res =>
        match st1.receipts with
        | none => st1
        | some receipts =>
          match receipts[st1.current_tx]? with
          | none => st1
          | some receipt =>
            { st1 with receipts := some (receipts.set st1.current_tx
                { receipt with result := res }) }

/-- The MMU oracle used by concrete witnesses: identity-ish translation on
the first two pages, all physical bytes 7, copies always succeed. -/
def witMmu : Mmu :=
  { translate := fun _ va => if va < 8192 then some va else none,
    phys := fun _ => 7,
    copy := fun _ _ _ => true }

/-- The trivial syscall oracle set used by concrete witnesses. -/
def witImpl : SyscallImpl :=
  { storage_get := fun _ s => some (0, s),
    storage_set := fun _ s => some (0, s),
    panic_h := fun _ s => some (0, s),
    fire_event := fun _ s => some (0, s),
    transfer_h := fun _ s => some (0, s),
    balance_h := fun _ s => some (0, s),
    prep := fun _ _ _ => some witTask }

/-- A user task whose recorded caller is another user task (slot 1), used by
the C1 counterexample. -/
def cexTask2 : Task :=
  { addr_space := { root_ppn := 3, asid := 2, va_base := 0, va_len := 2 ^ 20 },
    tf := { regs := fun _ => 0, pc := 0 },
    heap_ptr := 1024, caller_task_id := some 1, last_result := none }

/-- Kernel state for the C1 counterexample: task 2 (caller = task 1) is
current and completes. -/
def cexTrapState : KState :=
  { tasks := [witKTask, witTask, cexTask2], current_task := 2, current_tx := 0,
    last_completed_task := none, receipts := none, current_root := 3 }

/-- Kernel state for the C1 witness: task 1 (caller = kernel) completes. -/
def witBpState : KState :=
  { tasks := [witKTask, witTask], current_task := 1, current_tx := 0,
    last_completed_task := none, receipts := none, current_root := 2 }

/-- Saved registers for the C4 witness: `x17 = 999` (an ID outside the
dispatch table), saved pc `100`, all else zero. -/
def witEcallRegs : Fin 33 → Nat :=
  fun i => if (i : Nat) = 17 then 999 else if (i : Nat) = 32 then 100 else 0

/-- Kernel state with a full (16-entry) task table, for the C8 witness. -/
def witFullState : KState :=
  { tasks := List.replicate 16 witKTask, current_task := 0, current_tx := 0,
    last_completed_task := none, receipts := none, current_root := 1 }

/-! ### Tracing JIT (`vm/jit/mod.rs`, `vm/jit/trace.rs`) -/

/-- The decoded-instruction variants of `vm/src/instruction.rs` (file not
under `src/`).  Modelled from the spec: payload-free tags, one per opcode
named by `is_supported`/`ends_trace` in `vm/jit/trace.rs`, plus the
unsupported ops the spec names (`ecall`, `ebreak`, CSR access).  The JIT
claims only discriminate on the variant tag, never on operand payloads. -/
inductive Instruction
  | Add | Sub | Addi | And | Or | Xor | Andi | Ori | Xori
  | Slt | Sltu | Slti | Sltiu | Sll | Srl | Sra | Slli | Srli | Srai
  | Lw | Ld | Lb | Lbu | Lh | Lhu | Sh | Sw | Sb | Lui | Auipc
  | Mul | Mulh | Mulhu | Mulhsu | Div | Divu | Rem | Remu
  | Beq | Bne | Blt | Bge | Bltu | Bgeu | Jal | Jalr
  | Fence | Unimp
  | Ecall | Ebreak | Csrrw
deriving DecidableEq

/-- `ends_trace` from `vm/jit/trace.rs`: conditional branches, `jal` and
`jalr` terminate a trace. -/
def ends_trace : Instruction → Bool
  | .Beq | .Bne | .Blt | .Bge | .Bltu | .Bgeu | .Jal | .Jalr => true
  | _ => false

/-- `is_branch` from `vm/jit/trace.rs`. -/
def is_branch : Instruction → Bool
  | .Beq | .Bne | .Blt | .Bge | .Bltu | .Bgeu => true
  | _ => false

/-- `is_supported` from `vm/jit/trace.rs`: the JIT-compiled subset. -/
def is_supported : Instruction → Bool
  | .Add | .Sub | .Addi | .And | .Or | .Xor | .Andi | .Ori | .Xori
  | .Slt | .Sltu | .Slti | .Sltiu | .Sll | .Srl | .Sra | .Slli | .Srli | .Srai
  | .Lw | .Ld | .Lb | .Lbu | .Lh | .Lhu | .Sh | .Sw | .Sb | .Lui | .Auipc
  | .Mul | .Mulh | .Mulhu | .Mulhsu | .Div | .Divu | .Rem | .Remu
  | .Beq | .Bne | .Blt | .Bge | .Bltu | .Bgeu | .Jal | .Jalr
  | .Fence | .Unimp => true
  | _ => false

/-- `TRACE_LIMIT` from `vm/jit/trace.rs`. -/
def TRACE_LIMIT : Nat := 64

/-- `TraceInst` from `vm/jit/trace.rs`: pc, instruction size in bytes and
the decoded op. -/
structure TraceInst where
  pc : Nat
  size : Nat
  instr : Instruction
deriving DecidableEq

/-- `Trace` from `vm/jit/trace.rs`. -/
structure Trace where
  start_pc : Nat
  instrs : List TraceInst
deriving DecidableEq

/-- The `for _ in 0..TRACE_LIMIT` loop of `Trace::build`, over a decode
oracle standing for `decode_at` (`vm/src/decoder.rs` and `Memory` are not
under `src/`).  A decode failure aborts the whole build (the `?` in the
Rust loop); an unsupported instruction stops before it; a
branch/jump stops after being pushed. -/
def Trace.buildGo (d : Nat → Option (Instruction × Nat)) :
    Nat → Nat → List TraceInst → Option (List TraceInst)
  | 0, _, acc => some acc
  | fuel + 1, pc, acc =>
    match d pc with
    | none => none
    | some (instr, size) =>
      if ¬ is_supported instr then some acc
      else
        let acc' := acc ++ [⟨pc, size, instr⟩]
        if ends_trace instr then some acc'
        else Trace.buildGo d fuel ((pc + size) % U32MOD) acc'

/-- `Trace::build` from `vm/jit/trace.rs`: `none` when the loop gathered no
instruction. -/
def Trace.build (d : Nat → Option (Instruction × Nat)) (start_pc : Nat) :
    Option Trace :=
  match Trace.buildGo d TRACE_LIMIT start_pc [] with
  | none => none
  | some instrs => if instrs.isEmpty then none else some ⟨start_pc, instrs⟩

/-- Consecutive-address check for a trace: each entry sits at the running
pc, which advances by the entry's size (wrapping at 2^32). -/
def consecB : Nat → List TraceInst → Bool
  | _, [] => true
  | pc, ti :: rest => decide (ti.pc = pc) && consecB ((pc + ti.size) % U32MOD) rest

/-- Only the final instruction of a trace may be a branch, `jal` or `jalr`. -/
def noMidEndB : List TraceInst → Bool
  | [] => true
  | [_] => true
  | ti :: rest => !(ends_trace ti.instr) && noMidEndB rest

/-- Decode oracle for the C5 witness: a `jal` at every pc. -/
def witDecode : Nat → Option (Instruction × Nat) := fun _ => some (.Jal, 4)

/-- The one-instruction trace the C5 witness builds. -/
def witTrace : Trace := ⟨0, [⟨0, 4, .Jal⟩]⟩

/-- `CacheKey` from `vm/jit/mod.rs`: (root PPN, pc). -/
structure CacheKey where
  root : Nat
  pc : Nat
deriving DecidableEq

/-- The mutable fields of `Jit` (`vm/jit/mod.rs`).  The hit, cache and
failed maps are modelled as functions (`HashMap::entry(..).or_insert(0)`
reads 0 for an absent key); compiled entries have the abstract type `E`. -/
structure JitState (E : Type) where
  enabled : Bool
  hot_threshold : Nat
  hits : CacheKey → Nat
  cache : CacheKey → Option E
  failed : CacheKey → Bool
  compile_attempts : Nat
  compile_successes : Nat
  compile_failures : Nat
  exec_count : Nat
  cache_hit_count : Nat

/-- `u64::saturating_add` on in-range values. -/
def sat_add_u64 (a b : Nat) : Nat := min (a + b) (2 ^ 64 - 1)

/-- The CPU fields `Jit::maybe_execute` reads: pc, the verbose flag, and
whether the privilege mode is `User`. -/
structure CpuView where
  pc : Nat
  verbose : Bool
  priv_user : Bool

/-- The memory fields `Jit::maybe_execute` reads: the current-root shadow
and the decode oracle for `Trace::build`. -/
structure JitMem where
  current_root : Nat
  decodeAt : Nat → Option (Instruction × Nat)

/-- `Jit::new` from `vm/jit/mod.rs`. -/
def Jit.new (E : Type) (enabled : Bool) : JitState E :=
  { enabled := enabled, hot_threshold := 1000,
    hits := fun _ => 0, cache := fun _ => none, failed := fun _ => false,
    compile_attempts := 0, compile_successes := 0, compile_failures := 0,
    exec_count := 0, cache_hit_count := 0 }

/-- `Jit::set_hot_threshold` from `vm/jit/mod.rs`: clamps to at least 1. -/
def set_hot_threshold (j : JitState E) (threshold : Nat) : JitState E :=
  { j with hot_threshold := max threshold 1 }

/-- `Jit::record_hit` from `vm/jit/mod.rs`: bump the per-key counter
(saturating at `u32::MAX`) and report whether it reached the threshold. -/
def record_hit (j : JitState E) (key : CacheKey) : Bool × JitState E :=
  let count := min (j.hits key + 1) (2 ^ 32 - 1)
  (decide (count ≥ j.hot_threshold),
    { j with hits := fun k => if k = key then count else j.hits k })

/-- `Jit::maybe_execute` from `vm/jit/mod.rs`, with the cranelift compiler
(`compile_trace`) and the native-code execution (`run_entry`) as oracles
`comp` and `runE`.  Returns the dispatch outcome and the updated JIT
state. -/
def maybe_execute (comp : Trace → Option E) (runE : E → Bool)
    (j : JitState E) (cpu : CpuView) (mem : JitMem) :
    Option Bool × JitState E :=
  if ¬ j.enabled ∨ cpu.verbose ∨ ¬ cpu.priv_user then (none, j)
  else
    let key : CacheKey := ⟨mem.current_root, cpu.pc⟩
    if j.failed key then (none, j)
    else
      match j.cache key with
      | some entry =>
        (some (runE entry),
          { j with cache_hit_count := sat_add_u64 j.cache_hit_count 1,
                   exec_count := sat_add_u64 j.exec_count 1 })
      | none =>
        match record_hit j key with
        | (hot, j1) =>
          if ¬ hot then (none, j1)
          else
            match Trace.build mem.decodeAt cpu.pc with
            | none => (none, j1)
            | some trace =>
              let j2 := { j1 with
                compile_attempts := sat_add_u64 j1.compile_attempts 1 }
              match comp trace with
              | none =>
                (none, { j2 with
                  compile_failures := sat_add_u64 j2.compile_failures 1,
                  failed := fun k => if k = key then true else j2.failed k })
              | some entry =>
                (some (runE entry), { j2 with
                  compile_successes := sat_add_u64 j2.compile_successes 1,
                  cache := fun k => if k = key then some entry else j2.cache k,
                  exec_count := sat_add_u64 j2.exec_count 1 })

/-- The "first instruction unusable" condition of the claim: the decode at
`pc` fails, or its instruction is outside the JIT-supported set. -/
def firstUnsupported (d : Nat → Option (Instruction × Nat)) (pc : Nat) : Bool :=
  match d pc with
  | none => true
  | some (i, _) => !(is_supported i)

/-- A concrete JIT state for C2: enabled, hot threshold 1, empty maps. -/
def cexJit : JitState Unit :=
  { enabled := true
    hot_threshold := 1
    hits := fun _ => 0
    cache := fun _ => none
    failed := fun _ => false
    compile_attempts := 0
    compile_successes := 0
    compile_failures := 0
    exec_count := 0
    cache_hit_count := 0 }

/-- A concrete CPU view for C2: user mode, not verbose. -/
def cexCpu : CpuView := ⟨0x8000, false, true⟩

/-- A concrete memory view for C2: every pc decodes to `ecall`, which the
JIT does not support. -/
def cexJitMem : JitMem := ⟨2, fun _ => some (.Ecall, 4)⟩

theorem toLEBytes_length (w n : Nat) : (toLEBytes w n).length = w := by
  induction w generalizing n with
  | zero => rfl
  | succ w ih => simp [toLEBytes, ih]

theorem fromLEBytes_toLEBytes (w n : Nat) (h : n < 256 ^ w) :
    fromLEBytes (toLEBytes w n) = n := by
  induction w generalizing n with
  | zero =>
      simp [toLEBytes, fromLEBytes]
      omega
  | succ w ih =>
      have hdiv : n / 256 < 256 ^ w := by
        rw [Nat.div_lt_iff_lt_mul (by norm_num)]
        calc n < 256 ^ (w + 1) := h
        _ = 256 ^ w * 256 := by ring
      simp [toLEBytes, fromLEBytes, ih _ hdiv]
      omega

/-! ### Receipt codec lemmas (claim C6) -/

@[simp] theorem Address.mk_bytes (a : Address) : Address.mk a.bytes = a := rfl

theorem TransactionType.from_u8_toU8 (t : TransactionType) :
    TransactionType.from_u8 t.toU8 = some t := by
  cases t <;> rfl

/-- Reading an exact segment out of a concatenation succeeds and returns the
segment. -/
theorem readSlice_exact (pre mid post : List Nat) {B : List Nat} {c n : Nat}
    (hB : B = pre ++ (mid ++ post)) (hc : c = pre.length)
    (hn : n = mid.length) :
    readSlice B c n = some (mid, c + n) := by
  subst hB hc hn
  have h : ¬ (pre.length + mid.length > (pre ++ (mid ++ post)).length) := by
    simp only [List.length_append, gt_iff_lt, not_lt]
    omega
  simp only [readSlice, if_neg h, List.drop_left, List.take_left]

theorem encode_eq_parts (r : TransactionReceipt) :
    r.encode = txBytes r ++ (resultBytes r
      ++ (toLEBytes 4 r.events.length ++ eventsBytes r.events)) := by
  simp [TransactionReceipt.encode, txBytes, resultBytes, eventsBytes]

theorem decodeTxPart_encode (r : TransactionReceipt)
    (hto : r.tx.toAddr.bytes.length = ADDRESS_LEN)
    (hfr : r.tx.fromAddr.bytes.length = ADDRESS_LEN)
    (hdata : r.tx.data.length < 2 ^ 32)
    (hv : r.tx.value < 2 ^ 64) (hn : r.tx.nonce < 2 ^ 64)
    (rest : List Nat) :
    decodeTxPart (txBytes r ++ rest) = some (r.tx, (txBytes r).length) := by
  have h1 : readSlice (txBytes r ++ rest) 0 1
      = some ([r.tx.tx_type.toU8], 0 + 1) :=
    readSlice_exact ([]) ([r.tx.tx_type.toU8])
      (r.tx.toAddr.bytes ++ (r.tx.fromAddr.bytes
        ++ (toLEBytes 4 r.tx.data.length ++ (r.tx.data
        ++ (toLEBytes 8 r.tx.value ++ (toLEBytes 8 r.tx.nonce ++ rest))))))
      (by simp [txBytes]) (by simp) (by simp)
  have h2 : readSlice (txBytes r ++ rest) 1 20
      = some (r.tx.toAddr.bytes, 1 + 20) :=
    readSlice_exact ([r.tx.tx_type.toU8]) (r.tx.toAddr.bytes)
      (r.tx.fromAddr.bytes
        ++ (toLEBytes 4 r.tx.data.length ++ (r.tx.data
        ++ (toLEBytes 8 r.tx.value ++ (toLEBytes 8 r.tx.nonce ++ rest)))))
      (by simp [txBytes]) (by simp) (by simp [hto, ADDRESS_LEN])
  have h3 : readSlice (txBytes r ++ rest) 21 20
      = some (r.tx.fromAddr.bytes, 21 + 20) :=
    readSlice_exact ([r.tx.tx_type.toU8] ++ r.tx.toAddr.bytes)
      (r.tx.fromAddr.bytes)
      (toLEBytes 4 r.tx.data.length ++ (r.tx.data
        ++ (toLEBytes 8 r.tx.value ++ (toLEBytes 8 r.tx.nonce ++ rest))))
      (by simp [txBytes]) (by simp [hto, ADDRESS_LEN])
      (by simp [hfr, ADDRESS_LEN])
  have h4 : readSlice (txBytes r ++ rest) 41 4
      = some (toLEBytes 4 r.tx.data.length, 41 + 4) :=
    readSlice_exact
      ([r.tx.tx_type.toU8] ++ r.tx.toAddr.bytes ++ r.tx.fromAddr.bytes)
      (toLEBytes 4 r.tx.data.length)
      (r.tx.data
        ++ (toLEBytes 8 r.tx.value ++ (toLEBytes 8 r.tx.nonce ++ rest)))
      (by simp [txBytes]) (by simp [hto, hfr, ADDRESS_LEN])
      (by simp [toLEBytes_length])
  have hlen4 : fromLEBytes (toLEBytes 4 r.tx.data.length) = r.tx.data.length :=
    fromLEBytes_toLEBytes 4 _ (by norm_num at hdata ⊢; omega)
  have h5 : readSlice (txBytes r ++ rest) 45 r.tx.data.length
      = some (r.tx.data, 45 + r.tx.data.length) :=
    readSlice_exact
      ([r.tx.tx_type.toU8] ++ r.tx.toAddr.bytes ++ r.tx.fromAddr.bytes
        ++ toLEBytes 4 r.tx.data.length)
      (r.tx.data)
      (toLEBytes 8 r.tx.value ++ (toLEBytes 8 r.tx.nonce ++ rest))
      (by simp [txBytes]) (by simp [hto, hfr, ADDRESS_LEN, toLEBytes_length])
      rfl
  have h6 : readSlice (txBytes r ++ rest) (45 + r.tx.data.length) 8
      = some (toLEBytes 8 r.tx.value, 45 + r.tx.data.length + 8) :=
    readSlice_exact
      ([r.tx.tx_type.toU8] ++ r.tx.toAddr.bytes ++ r.tx.fromAddr.bytes
        ++ toLEBytes 4 r.tx.data.length ++ r.tx.data)
      (toLEBytes 8 r.tx.value)
      (toLEBytes 8 r.tx.nonce ++ rest)
      (by simp [txBytes])
      (by simp [hto, hfr, ADDRESS_LEN, toLEBytes_length]; omega)
      (by simp [toLEBytes_length])
  have h7 : readSlice (txBytes r ++ rest) (45 + r.tx.data.length + 8) 8
      = some (toLEBytes 8 r.tx.nonce, 45 + r.tx.data.length + 8 + 8) :=
    readSlice_exact
      ([r.tx.tx_type.toU8] ++ r.tx.toAddr.bytes ++ r.tx.fromAddr.bytes
        ++ toLEBytes 4 r.tx.data.length ++ r.tx.data ++ toLEBytes 8 r.tx.value)
      (toLEBytes 8 r.tx.nonce)
      (rest)
      (by simp [txBytes])
      (by simp [hto, hfr, ADDRESS_LEN, toLEBytes_length]; omega)
      (by simp [toLEBytes_length])
  have hv64 : fromLEBytes (toLEBytes 8 r.tx.value) = r.tx.value :=
    fromLEBytes_toLEBytes 8 _ (by norm_num at hv ⊢; omega)
  have hn64 : fromLEBytes (toLEBytes 8 r.tx.nonce) = r.tx.nonce :=
    fromLEBytes_toLEBytes 8 _ (by norm_num at hn ⊢; omega)
  have hlen : (txBytes r).length = 45 + r.tx.data.length + 8 + 8 := by
    simp [txBytes, hto, hfr, ADDRESS_LEN, toLEBytes_length]
    omega
  simp [decodeTxPart, h1, h2, h3, h4, h5, h6, h7, hlen4, hv64, hn64,
    TransactionType.from_u8_toU8, hlen]

theorem decide_if_one_zero (b : Bool) :
    decide (¬ (if b then (1 : Nat) else 0) = 0) = b := by
  cases b <;> rfl

theorem decodeResultPart_encode (r : TransactionReceipt)
    (hec : r.result.error_code < 2 ^ 32)
    (hdl : r.result.data_len ≤ RESULT_DATA_SIZE)
    (hlen : r.result.data.length = RESULT_DATA_SIZE)
    (hz : ∀ b ∈ r.result.data.drop r.result.data_len, b = 0)
    (pre rest : List Nat) (c : Nat) (hc : c = pre.length) :
    decodeResultPart (pre ++ (resultBytes r ++ rest)) c
      = some (r.result, c + (resultBytes r).length) := by
  have hmin : min r.result.data_len r.result.data.length = r.result.data_len := by
    simp [hlen]
    exact le_trans hdl (le_refl _)
  have htk : (r.result.data.take r.result.data_len).length = r.result.data_len := by
    simp [hlen]
    omega
  have h1 : readSlice (pre ++ (resultBytes r ++ rest)) c 1
      = some ([if r.result.success then 1 else 0], c + 1) :=
    readSlice_exact (pre) ([if r.result.success then 1 else 0])
      (toLEBytes 4 r.result.error_code ++ (toLEBytes 4 r.result.data_len
        ++ (r.result.data.take (min r.result.data_len r.result.data.length) ++ rest)))
      (by simp [resultBytes]) hc (by simp)
  have h2 : readSlice (pre ++ (resultBytes r ++ rest)) (c + 1) 4
      = some (toLEBytes 4 r.result.error_code, c + 1 + 4) :=
    readSlice_exact (pre ++ [if r.result.success then 1 else 0])
      (toLEBytes 4 r.result.error_code)
      (toLEBytes 4 r.result.data_len
        ++ (r.result.data.take (min r.result.data_len r.result.data.length) ++ rest))
      (by simp [resultBytes]) (by simp [hc]) (by simp [toLEBytes_length])
  have h3 : readSlice (pre ++ (resultBytes r ++ rest)) (c + 1 + 4) 4
      = some (toLEBytes 4 r.result.data_len, c + 1 + 4 + 4) :=
    readSlice_exact
      (pre ++ [if r.result.success then 1 else 0]
        ++ toLEBytes 4 r.result.error_code)
      (toLEBytes 4 r.result.data_len)
      (r.result.data.take (min r.result.data_len r.result.data.length) ++ rest)
      (by simp [resultBytes]) (by simp [hc, toLEBytes_length])
      (by simp [toLEBytes_length])
  have hdl4 : fromLEBytes (toLEBytes 4 r.result.data_len) = r.result.data_len :=
    fromLEBytes_toLEBytes 4 _
      (by have : RESULT_DATA_SIZE < 256 ^ 4 := by norm_num [RESULT_DATA_SIZE]
          omega)
  have h4 : readSlice (pre ++ (resultBytes r ++ rest)) (c + 1 + 4 + 4)
      r.result.data_len
      = some (r.result.data.take r.result.data_len,
          c + 1 + 4 + 4 + r.result.data_len) :=
    readSlice_exact
      (pre ++ [if r.result.success then 1 else 0]
        ++ toLEBytes 4 r.result.error_code ++ toLEBytes 4 r.result.data_len)
      (r.result.data.take r.result.data_len)
      (rest)
      (by simp [resultBytes, hmin]) (by simp [hc, toLEBytes_length])
      (by rw [htk])
  have hec4 : fromLEBytes (toLEBytes 4 r.result.error_code) = r.result.error_code :=
    fromLEBytes_toLEBytes 4 _ (by norm_num at hec ⊢; omega)
  have hngt : ¬ (r.result.data_len > RESULT_DATA_SIZE) := by omega
  have hbuf : (r.result.data.take r.result.data_len).take
        (min r.result.data_len RESULT_DATA_SIZE)
      ++ List.replicate (RESULT_DATA_SIZE - min r.result.data_len RESULT_DATA_SIZE) 0
      = r.result.data := by
    have hm2 : min r.result.data_len RESULT_DATA_SIZE = r.result.data_len := by omega
    rw [hm2, List.take_take, Nat.min_self]
    have hdrop : r.result.data.drop r.result.data_len
        = List.replicate (RESULT_DATA_SIZE - r.result.data_len) 0 := by
      rw [List.eq_replicate_iff]
      constructor
      · simp [hlen]
      · exact hz
    calc r.result.data.take r.result.data_len
          ++ List.replicate (RESULT_DATA_SIZE - r.result.data_len) 0
        = r.result.data.take r.result.data_len
          ++ r.result.data.drop r.result.data_len := by rw [hdrop]
      _ = r.result.data := List.take_append_drop _ _
  have hreslen : (resultBytes r).length = 1 + 4 + 4 + r.result.data_len := by
    simp [resultBytes, toLEBytes_length, hmin, htk]
    omega
  simp [decodeResultPart, h1, h2, h3, h4, hdl4, hec4, hngt, hbuf,
    decide_if_one_zero, hreslen]
  omega

theorem lt_256_pow4 {n : Nat} (h : n < 2 ^ 32) : n < 256 ^ 4 := by
  have h2p : (256 : Nat) ^ 4 = 2 ^ 32 := by norm_num
  omega

theorem eventsBytes_cons (e : List Nat) (es : List (List Nat)) :
    eventsBytes (e :: es) = toLEBytes 4 e.length ++ e ++ eventsBytes es := rfl

theorem decodeEvents_encode (events : List (List Nat))
    (he : ∀ e ∈ events, e.length < 2 ^ 32)
    (pre rest : List Nat) (c : Nat) (hc : c = pre.length) :
    decodeEvents (pre ++ (eventsBytes events ++ rest)) c events.length
      = some (events, c + (eventsBytes events).length) := by
  induction events generalizing pre rest c with
  | nil => simp [decodeEvents, eventsBytes]
  | cons e es ih =>
      have he1 : e.length < 2 ^ 32 := he e (List.mem_cons_self _ _)
      have hes : ∀ x ∈ es, x.length < 2 ^ 32 := fun x hx => he x (List.mem_cons_of_mem _ hx)
      have hlen4 : fromLEBytes (toLEBytes 4 e.length) = e.length :=
        fromLEBytes_toLEBytes 4 _ (lt_256_pow4 he1)
      have h1 : readSlice (pre ++ (eventsBytes (e :: es) ++ rest)) c 4
          = some (toLEBytes 4 e.length, c + 4) :=
        readSlice_exact (pre) (toLEBytes 4 e.length)
          (e ++ (eventsBytes es ++ rest))
          (by simp [eventsBytes_cons]) hc (by simp [toLEBytes_length])
      have h2 : readSlice (pre ++ (eventsBytes (e :: es) ++ rest)) (c + 4)
            (fromLEBytes (toLEBytes 4 e.length))
          = some (e, c + 4 + e.length) := by
        rw [hlen4]
        exact readSlice_exact (pre ++ toLEBytes 4 e.length) (e)
          (eventsBytes es ++ rest)
          (by simp [eventsBytes_cons])
          (by simp only [hc, List.length_append, toLEBytes_length])
          rfl
      have h3 : decodeEvents (pre ++ (eventsBytes (e :: es) ++ rest))
            (c + 4 + e.length) es.length
          = some (es, c + 4 + e.length + (eventsBytes es).length) := by
        have := ih hes (pre ++ toLEBytes 4 e.length ++ e) rest (c + 4 + e.length)
          (by simp only [hc, List.length_append, toLEBytes_length]; try omega)
        calc decodeEvents (pre ++ (eventsBytes (e :: es) ++ rest))
              (c + 4 + e.length) es.length
            = decodeEvents ((pre ++ toLEBytes 4 e.length ++ e)
                ++ (eventsBytes es ++ rest)) (c + 4 + e.length) es.length := by
              simp [eventsBytes_cons]
          _ = some (es, c + 4 + e.length + (eventsBytes es).length) := this
      show decodeEvents _ c (es.length + 1) = _
      simp only [decodeEvents, h1, h2, h3, Option.bind_eq_bind, Option.some_bind]
      simp [eventsBytes_cons, toLEBytes_length]
      omega

/-- C6 (amended): for every well-formed receipt whose `result.data_len` is at
most `RESULT_DATA_SIZE`, whose transaction data and event lengths (and event
count) are representable as `u32`, and whose result-data bytes past
`data_len` are zero, `decode` applied to `encode` returns the original
receipt together with a consumed-byte count equal to the encoded buffer's
length.  The zero-tail condition is required: `decode` rebuilds the fixed
result buffer with zeros past `data_len`, so a receipt carrying nonzero
tail bytes does not round-trip (see the counterexample). -/
theorem c6_receipt_roundtrip (r : TransactionReceipt) (hwf : ReceiptWF r)
    (hz : ∀ b ∈ r.result.data.drop r.result.data_len, b = 0) :
    TransactionReceipt.decode r.encode = some (r, r.encode.length) := by
  obtain ⟨hto, hfr, hdata, hv, hn, hec, hdl, hlen, hevc, hev⟩ := hwf
  have hparts := encode_eq_parts r
  have h1 : decodeTxPart r.encode = some (r.tx, (txBytes r).length) := by
    rw [hparts]
    exact decodeTxPart_encode r hto hfr hdata hv hn _
  have h2 : decodeResultPart r.encode (txBytes r).length
      = some (r.result, (txBytes r).length + (resultBytes r).length) := by
    rw [hparts]
    exact decodeResultPart_encode r hec hdl hlen hz (txBytes r) _ _ rfl
  have h3 : readSlice r.encode ((txBytes r).length + (resultBytes r).length) 4
      = some (toLEBytes 4 r.events.length,
          (txBytes r).length + (resultBytes r).length + 4) := by
    rw [hparts]
    exact readSlice_exact (txBytes r ++ resultBytes r)
      (toLEBytes 4 r.events.length) (eventsBytes r.events)
      (by simp) (by simp) (by simp [toLEBytes_length])
  have hc4 : fromLEBytes (toLEBytes 4 r.events.length) = r.events.length :=
    fromLEBytes_toLEBytes 4 _ (lt_256_pow4 hevc)
  have hshape : r.encode
      = (txBytes r ++ resultBytes r ++ toLEBytes 4 r.events.length)
        ++ (eventsBytes r.events ++ []) := by
    rw [hparts]
    simp
  have h4 : decodeEvents r.encode
        ((txBytes r).length + (resultBytes r).length + 4)
        (fromLEBytes (toLEBytes 4 r.events.length))
      = some (r.events, (txBytes r).length + (resultBytes r).length + 4
          + (eventsBytes r.events).length) := by
    rw [hc4, hshape]
    exact decodeEvents_encode r.events hev
      (txBytes r ++ resultBytes r ++ toLEBytes 4 r.events.length) [] _
      (by simp [toLEBytes_length]; try omega)
  have hlenc : r.encode.length = (txBytes r).length + (resultBytes r).length
      + 4 + (eventsBytes r.events).length := by
    rw [hparts]
    simp [toLEBytes_length]
    omega
  simp [TransactionReceipt.decode, h1, h2, h3, h4, hlenc]
  try omega

set_option maxRecDepth 10000 in
/-- C6 counterexample: a receipt with `data_len = 0` but a nonzero byte in its
fixed-size result buffer satisfies every hypothesis of the claim as stated,
yet `decode (encode r)` does not return `r`: the nonzero tail byte decodes
back as zero. -/
theorem receipt_roundtrip_cex :
    cexReceipt.result.data_len ≤ RESULT_DATA_SIZE ∧
    ReceiptWF cexReceipt ∧
    TransactionReceipt.decode cexReceipt.encode ≠
      some (cexReceipt, cexReceipt.encode.length) := by decide

set_option maxRecDepth 10000 in
/-- C6 witness: the amended round-trip law evaluated at a concrete receipt. -/
theorem receipt_roundtrip_witness :
    ReceiptWF wfReceipt ∧
    TransactionReceipt.decode wfReceipt.encode
      = some (wfReceipt, wfReceipt.encode.length) :=
  ⟨by decide, c6_receipt_roundtrip wfReceipt (by decide) (by decide)⟩

theorem transfer_success_eq (s : State) (fromA toA : Address) (v : Nat)
    (acc : Account) (h : s.get_account fromA = some acc)
    (hle : v ≤ acc.balance) (hne : fromA ≠ toA)
    (hlt : s.balance_of toA + v < 2 ^ 128) :
    s.transfer fromA toA v
      = (true, (s.set_balance fromA (acc.balance - v)).set_balance toA
          (s.balance_of toA + v)) := by
  have h1 : ¬ (acc.balance < v) := Nat.not_lt.mpr hle
  simp only [State.transfer, h, if_neg h1, if_neg hne, checked_add_u128,
    if_pos hlt]

/-- C9 (amended): full case analysis of `State::transfer`.  The overflow
check on the destination balance applies only when `from ≠ to`: a
self-transfer with sufficient funds returns `true` before the overflow check
is reached (see the counterexample).  In every failure case the returned
state is exactly the input state; in the success case `from` decreases and
`to` increases by exactly `v` and every other account is untouched. -/
theorem c9_state_transfer (s : State) (fromA toA : Address) (v : Nat) :
    (s.get_account fromA = none → s.transfer fromA toA v = (false, s)) ∧
    (∀ acc, s.get_account fromA = some acc → acc.balance < v →
      s.transfer fromA toA v = (false, s)) ∧
    (∀ acc, s.get_account fromA = some acc → v ≤ acc.balance → fromA = toA →
      s.transfer fromA toA v = (true, s)) ∧
    (∀ acc, s.get_account fromA = some acc → v ≤ acc.balance → fromA ≠ toA →
      2 ^ 128 ≤ s.balance_of toA + v →
      s.transfer fromA toA v = (false, s)) ∧
    (∀ acc, s.get_account fromA = some acc → v ≤ acc.balance → fromA ≠ toA →
      s.balance_of toA + v < 2 ^ 128 →
      (s.transfer fromA toA v).1 = true ∧
      (s.transfer fromA toA v).2.balance_of fromA = acc.balance - v ∧
      (s.transfer fromA toA v).2.balance_of toA = s.balance_of toA + v ∧
      (∀ a, a ≠ fromA → a ≠ toA →
        (s.transfer fromA toA v).2.accounts a = s.accounts a)) := by
  refine ⟨?_, ?_, ?_, ?_, ?_⟩
  · intro h
    simp [State.transfer, h]
  · intro acc h hlt
    simp [State.transfer, h, hlt]
  · intro acc h hle heq
    subst heq
    simp [State.transfer, h, Nat.not_lt.mpr hle]
  · intro acc h hle hne hov
    have h1 : ¬ (acc.balance < v) := Nat.not_lt.mpr hle
    have h2 : ¬ (s.balance_of toA + v < 2 ^ 128) := Nat.not_lt.mpr hov
    simp only [State.transfer, h, if_neg h1, if_neg hne, checked_add_u128,
      if_neg h2]
  · intro acc h hle hne hlt
    have h' : s.accounts fromA = some acc := h
    rw [transfer_success_eq s fromA toA v acc h hle hne hlt]
    refine ⟨rfl, ?_, ?_, ?_⟩
    · simp [State.set_balance, State.balance_of, if_neg hne, h']
    · simp [State.set_balance, State.balance_of]
    · intro a haf hat
      simp [State.set_balance, if_neg haf, if_neg hat]

/-- C9 counterexample: a self-transfer whose destination balance plus value
overflows `u128` still returns `true`, because `State::transfer` takes the
`from == to` early-return before the overflow check; the claim as stated
requires `false` whenever the destination balance plus `v` overflows. -/
theorem state_transfer_cex :
    2 ^ 128 ≤ cexState.balance_of cexAddr + 1 ∧
    (cexState.transfer cexAddr cexAddr 1).1 = true := by
  constructor
  · have : cexState.balance_of cexAddr = 2 ^ 128 - 1 := by
      simp [cexState, State.balance_of, cexAcc]
    omega
  · rfl

/-- C9 witness: the amended case analysis applied to a concrete two-account
transfer. -/
theorem state_transfer_witness :
    (cexState.get_account cexAddr = some cexAcc ∧ 5 ≤ cexAcc.balance ∧
      cexAddr ≠ witAddr ∧ cexState.balance_of witAddr + 5 < 2 ^ 128) ∧
    (cexState.transfer cexAddr witAddr 5).1 = true ∧
    (cexState.transfer cexAddr witAddr 5).2.balance_of witAddr
      = cexState.balance_of witAddr + 5 :=
  ⟨⟨by decide, by decide, by decide, by decide⟩,
    ((c9_state_transfer cexState cexAddr witAddr 5).2.2.2.2
      cexAcc (by decide) (by decide) (by decide) (by decide)).1,
    ((c9_state_transfer cexState cexAddr witAddr 5).2.2.2.2
      cexAcc (by decide) (by decide) (by decide) (by decide)).2.2.1⟩

theorem land_pred_eq_zero_iff {n : Nat} (hn : n ≠ 0) :
    n &&& (n - 1) = 0 ↔ ∃ k, n = 2 ^ k := by
  constructor
  · intro h
    refine ⟨n.log2, ?_⟩
    have h1 : 2 ^ n.log2 ≤ n := Nat.log2_self_le hn
    have h2 : n < 2 ^ (n.log2 + 1) := Nat.lt_log2_self
    set k := n.log2 with hk
    by_contra hne
    have hm1 : 2 ^ k < n := lt_of_le_of_ne h1 (fun he => hne he.symm)
    have hmlt : n - 2 ^ k < 2 ^ k := by
      have : 2 ^ (k + 1) = 2 ^ k + 2 ^ k := by ring
      omega
    have hbn : n.testBit k = true := by
      have hrw : n = 2 ^ k + (n - 2 ^ k) := by omega
      rw [hrw, Nat.testBit_two_pow_add_eq,
        Nat.testBit_lt_two_pow hmlt]
      rfl
    have hbn1 : (n - 1).testBit k = true := by
      have hrw : n - 1 = 2 ^ k + (n - 2 ^ k - 1) := by omega
      have hlt' : n - 2 ^ k - 1 < 2 ^ k := by omega
      rw [hrw, Nat.testBit_two_pow_add_eq, Nat.testBit_lt_two_pow hlt']
      rfl
    have : (n &&& (n - 1)).testBit k = true := by
      rw [Nat.testBit_land, hbn, hbn1]
      rfl
    rw [h] at this
    simp at this
  · rintro ⟨k, rfl⟩
    rw [Nat.and_pow_two_sub_one_eq_mod]
    exact Nat.mod_self _

theorem complement32_mask (k : Nat) (hk : k ≤ 32) :
    complement32 (2 ^ k - 1) = 2 ^ 32 - 2 ^ k := by
  have h1 : (1 : Nat) ≤ 2 ^ k := Nat.one_le_two_pow
  have h2 : 2 ^ k ≤ 2 ^ 32 := Nat.pow_le_pow_right (by norm_num) hk
  unfold complement32
  omega

theorem align_down_eq (k x : Nat) (hk : k ≤ 32) (hx : x < 2 ^ 32) :
    x &&& complement32 (2 ^ k - 1) = 2 ^ k * (x / 2 ^ k) := by
  rw [complement32_mask k hk]
  have hrepr : 2 ^ 32 - 2 ^ k = (2 ^ (32 - k) - 1) <<< k := by
    rw [Nat.shiftLeft_eq]
    have h1 : (1 : Nat) ≤ 2 ^ (32 - k) := Nat.one_le_two_pow
    have h2 : 2 ^ (32 - k) * 2 ^ k = 2 ^ 32 := by
      rw [← pow_add]
      congr 1
      omega
    have h3 : (1 : Nat) ≤ 2 ^ k := Nat.one_le_two_pow
    calc 2 ^ 32 - 2 ^ k = 2 ^ (32 - k) * 2 ^ k - 1 * 2 ^ k := by rw [h2, one_mul]
      _ = (2 ^ (32 - k) - 1) * 2 ^ k := by rw [Nat.sub_mul]
  have hrhs : 2 ^ k * (x / 2 ^ k) = (x >>> k) <<< k := by
    rw [Nat.shiftLeft_eq, Nat.shiftRight_eq_div_pow, Nat.mul_comm]
  rw [hrepr, hrhs]
  apply Nat.eq_of_testBit_eq
  intro i
  rw [Nat.testBit_land, Nat.testBit_shiftLeft, Nat.testBit_shiftLeft,
    Nat.testBit_two_pow_sub_one, Nat.testBit_shiftRight]
  by_cases hki : k ≤ i
  · have hadd : k + (i - k) = i := by omega
    rw [hadd]
    by_cases hi32 : i < 32
    · have : i - k < 32 - k := by omega
      simp [hki, this]
    · have hxf : x.testBit i = false :=
        Nat.testBit_lt_two_pow
          (lt_of_lt_of_le hx (Nat.pow_le_pow_right (by norm_num) (by omega)))
      have : ¬ (i - k < 32 - k) := by omega
      simp [hki, this, hxf]
  · simp [hki]

theorem alignUp_spec (k x : Nat) :
    2 ^ k ∣ alignUp (2 ^ k) x ∧ x ≤ alignUp (2 ^ k) x ∧
    ∀ y, 2 ^ k ∣ y → x ≤ y → alignUp (2 ^ k) x ≤ y := by
  have hp : 0 < 2 ^ k := Nat.pos_pow_of_pos k (by norm_num)
  set p := 2 ^ k with hpk
  unfold alignUp
  refine ⟨Dvd.intro _ rfl, ?_, ?_⟩
  · have hdm := Nat.div_add_mod (x + (p - 1)) p
    have hmlt : (x + (p - 1)) % p < p := Nat.mod_lt _ hp
    omega
  · rintro y ⟨m, rfl⟩ hxy
    have h1 : x + (p - 1) ≤ p * m + (p - 1) := by omega
    have h2 : (x + (p - 1)) / p ≤ (p * m + (p - 1)) / p :=
      Nat.div_le_div_right h1
    have h3 : (p * m + (p - 1)) / p = m + (p - 1) / p := Nat.mul_add_div hp m (p - 1)
    have h4 : (p - 1) / p = 0 := Nat.div_eq_of_lt (by omega)
    have : (x + (p - 1)) / p ≤ m := by omega
    calc p * ((x + (p - 1)) / p) ≤ p * m := Nat.mul_le_mul_left p this
      _ = p * m := rfl

theorem alloc_start_eq (t : Task) (k : Nat) (hk : k ≤ 32)
    (hno : t.heap_ptr + (2 ^ k - 1) < 2 ^ 32) :
    (t.heap_ptr + (2 ^ k - 1)) &&& complement32 (2 ^ k - 1)
      = alignUp (2 ^ k) t.heap_ptr := by
  rw [align_down_eq k _ hk hno]
  rfl

theorem pow2_land_pred (k : Nat) : 2 ^ k &&& (2 ^ k - 1) = 0 := by
  rw [Nat.and_pow_two_sub_one_eq_mod]
  exact Nat.mod_self _

/-- C7: case analysis of the alloc syscall (ID 7).  Failure (size 0, invalid
alignment, arithmetic overflow, or a range outside the VA window) returns
`0` and leaves the state - in particular the task's heap pointer -
unchanged; otherwise the returned address is the smallest `align`-aligned
address at or above the heap pointer, and the heap pointer advances to that
address plus `size`. -/
theorem c7_sys_alloc (st : KState) (t : Task) (args : Fin 6 → Nat)
    (size align : Nat)
    (hcur : st.current_task ≠ KERNEL_TASK_SLOT)
    (hget : st.tasks[st.current_task]? = some t)
    (ha0 : args 0 = size) (ha1 : args 1 = align)
    (hal : align < 2 ^ 32) :
    ((size = 0 ∨ align = 0 ∨ ¬ (∃ k, align = 2 ^ k)) →
      sys_alloc args st = some (0, st)) ∧
    (∀ k, align = 2 ^ k → size ≠ 0 →
      (2 ^ 32 ≤ t.heap_ptr + (align - 1) →
        sys_alloc args st = some (0, st)) ∧
      (t.heap_ptr + (align - 1) < 2 ^ 32 →
        (2 ^ 32 ≤ alignUp align t.heap_ptr + size →
          sys_alloc args st = some (0, st)) ∧
        (alignUp align t.heap_ptr + size < 2 ^ 32 →
          ((alignUp align t.heap_ptr < t.addr_space.va_base ∨
            t.addr_space.va_base + t.addr_space.va_len
              < alignUp align t.heap_ptr + size) →
            sys_alloc args st = some (0, st)) ∧
          (t.addr_space.va_base ≤ alignUp align t.heap_ptr →
            alignUp align t.heap_ptr + size
              ≤ t.addr_space.va_base + t.addr_space.va_len →
            sys_alloc args st = some (alignUp align t.heap_ptr,
              { st with tasks := (st.tasks.set st.current_task
                  { t with heap_ptr := alignUp align t.heap_ptr + size }) }) ∧
            align ∣ alignUp align t.heap_ptr ∧
            t.heap_ptr ≤ alignUp align t.heap_ptr ∧
            ∀ y, align ∣ y → t.heap_ptr ≤ y → alignUp align t.heap_ptr ≤ y)))) := by
  subst ha0 ha1
  constructor
  · intro h
    rcases h with h | h | h
    · simp [sys_alloc, hcur, hget, alloc_in_task, h]
    · simp [sys_alloc, hcur, hget, alloc_in_task, h]
    · by_cases h0 : args 1 = 0
      · simp [sys_alloc, hcur, hget, alloc_in_task, h0]
      · have hland : args 1 &&& (args 1 - 1) ≠ 0 := by
          intro he
          exact h ((land_pred_eq_zero_iff h0).mp he)
        by_cases hs : args 0 = 0
        · simp [sys_alloc, hcur, hget, alloc_in_task, hs]
        · simp [sys_alloc, hcur, hget, alloc_in_task, hs, hland]
  · intro k hk hs
    have hk32 : k ≤ 32 := by
      by_contra hgt
      have : (2 : Nat) ^ 32 < 2 ^ k :=
        Nat.pow_lt_pow_right (by norm_num) (by omega)
      omega
    have hland : ¬ (args 1 = 0 ∨ args 1 &&& (args 1 - 1) ≠ 0) := by
      rw [hk]
      push_neg
      exact ⟨(Nat.pos_pow_of_pos k (by norm_num)).ne', pow2_land_pred k⟩
    constructor
    · intro hov
      have hnone : checked_add_u32 t.heap_ptr (args 1 - 1) = none := by
        simp [checked_add_u32]
        omega
      simp [sys_alloc, hcur, hget, alloc_in_task, hs, hland, hnone]
    · intro hno
      have hsome : checked_add_u32 t.heap_ptr (args 1 - 1)
          = some (t.heap_ptr + (args 1 - 1)) := by
        simp [checked_add_u32]
        omega
      have hstart : (t.heap_ptr + (args 1 - 1)) &&& complement32 (args 1 - 1)
          = alignUp (args 1) t.heap_ptr := by
        rw [hk] at hno ⊢
        exact alloc_start_eq t k hk32 hno
      constructor
      · intro hov2
        have hnone2 : checked_add_u32 (alignUp (args 1) t.heap_ptr) (args 0)
            = none := by
          simp [checked_add_u32]
          omega
        simp [sys_alloc, hcur, hget, alloc_in_task, hs, hland, hsome, hstart,
          hnone2]
      · intro hno2
        have hsome2 : checked_add_u32 (alignUp (args 1) t.heap_ptr) (args 0)
            = some (alignUp (args 1) t.heap_ptr + args 0) := by
          simp [checked_add_u32]
          omega
        constructor
        · intro hwin
          have hif : (alignUp (args 1) t.heap_ptr < t.addr_space.va_base ∨
              alignUp (args 1) t.heap_ptr + args 0
                > sat_add_u32 t.addr_space.va_base t.addr_space.va_len) := by
            unfold sat_add_u32
            omega
          simp [sys_alloc, hcur, hget, alloc_in_task, hs, hland, hsome, hstart,
            hsome2, hif]
        · intro hb hl
          have hif : ¬ (alignUp (args 1) t.heap_ptr < t.addr_space.va_base ∨
              alignUp (args 1) t.heap_ptr + args 0
                > sat_add_u32 t.addr_space.va_base t.addr_space.va_len) := by
            unfold sat_add_u32
            omega
          refine ⟨by simp [sys_alloc, hcur, hget, alloc_in_task, hs, hland,
            hsome, hstart, hsome2, hif], ?_, ?_, ?_⟩
          · rw [hk]
            exact (alignUp_spec k t.heap_ptr).1
          · rw [hk]
            exact (alignUp_spec k t.heap_ptr).2.1
          · rw [hk]
            exact (alignUp_spec k t.heap_ptr).2.2

/-- C7 witness: the alloc case analysis evaluated at a concrete task whose
heap pointer is 5: allocating 16 bytes with alignment 8 yields address 8 and
advances the heap pointer to 24. -/
theorem sys_alloc_witness :
    (witState.current_task ≠ KERNEL_TASK_SLOT ∧
      witState.tasks[witState.current_task]? = some witTask ∧
      witArgs 0 = 16 ∧ witArgs 1 = 8 ∧ (8 : Nat) < 2 ^ 32 ∧
      (8 : Nat) = 2 ^ 3 ∧ (16 : Nat) ≠ 0) ∧
    sys_alloc witArgs witState = some (alignUp 8 witTask.heap_ptr,
      { witState with tasks := (witState.tasks.set witState.current_task
          { witTask with heap_ptr := alignUp 8 witTask.heap_ptr + 16 }) }) ∧
    8 ∣ alignUp 8 witTask.heap_ptr ∧
    witTask.heap_ptr ≤ alignUp 8 witTask.heap_ptr ∧
    ∀ y, 8 ∣ y → witTask.heap_ptr ≤ y → alignUp 8 witTask.heap_ptr ≤ y :=
  ⟨⟨by decide, rfl, rfl, rfl, by decide, by decide, by decide⟩,
    (((((c7_sys_alloc witState witTask witArgs 16 8 (by decide) rfl rfl rfl
      (by decide)).2 3 (by decide) (by decide)).2 (by decide)).2
        (by decide)).2 (by decide) (by decide))⟩

theorem rub_go_spec (m : Mmu) (root : Nat) :
    ∀ fuel va remaining, remaining ≤ fuel →
      (rub_go m root fuel va remaining = none ↔
        ∃ x ∈ rub_vas fuel va remaining, m.translate root x = none) ∧
      (∀ buf, rub_go m root fuel va remaining = some buf →
        buf.length = remaining) := by
  intro fuel
  induction fuel with
  | zero =>
      intro va remaining hle
      have h0 : remaining = 0 := Nat.le_zero.mp hle
      subst h0
      refine ⟨by simp [rub_go, rub_vas], ?_⟩
      intro buf hbuf
      simp [rub_go] at hbuf
      simp [← hbuf]
  | succ fuel ih =>
      intro va remaining hle
      by_cases h0 : remaining = 0
      · subst h0
        refine ⟨by simp [rub_go, rub_vas], ?_⟩
        intro buf hbuf
        simp [rub_go] at hbuf
        simp [← hbuf]
      · have hoff : va % SV32_PAGE_SIZE < SV32_PAGE_SIZE :=
          Nat.mod_lt _ (by norm_num [SV32_PAGE_SIZE])
        have hcp : 1 ≤ min remaining (SV32_PAGE_SIZE - va % SV32_PAGE_SIZE) := by
          have h1 : 1 ≤ remaining := Nat.one_le_iff_ne_zero.mpr h0
          have h2 : 1 ≤ SV32_PAGE_SIZE - va % SV32_PAGE_SIZE := by omega
          omega
        have hrec := ih ((va + min remaining (SV32_PAGE_SIZE - va % SV32_PAGE_SIZE)) % U32MOD)
          (remaining - min remaining (SV32_PAGE_SIZE - va % SV32_PAGE_SIZE))
          (by omega)
        constructor
        · constructor
          · intro hnone
            rw [rub_go, if_neg h0] at hnone
            rw [rub_vas, if_neg h0]
            match htr : m.translate root va with
            | none => exact ⟨va, by simp, htr⟩
            | some p =>
              rw [htr] at hnone
              simp only at hnone
              match hrg : rub_go m root fuel
                  ((va + min remaining (SV32_PAGE_SIZE - va % SV32_PAGE_SIZE)) % U32MOD)
                  (remaining - min remaining (SV32_PAGE_SIZE - va % SV32_PAGE_SIZE)) with
              | none =>
                obtain ⟨x, hx, hxf⟩ := hrec.1.mp hrg
                exact ⟨x, List.mem_cons_of_mem _ hx, hxf⟩
              | some rest =>
                rw [hrg] at hnone
                simp at hnone
          · rintro ⟨x, hx, hxf⟩
            rw [rub_vas, if_neg h0] at hx
            rw [rub_go, if_neg h0]
            rcases List.mem_cons.mp hx with hx | hx
            · subst hx
              rw [hxf]
            · match htr : m.translate root va with
              | none => rfl
              | some p =>
                simp only
                rw [hrec.1.mpr ⟨x, hx, hxf⟩]
        · intro buf hbuf
          rw [rub_go, if_neg h0] at hbuf
          match htr : m.translate root va with
          | none => rw [htr] at hbuf; exact absurd hbuf (by simp)
          | some p =>
            rw [htr] at hbuf
            simp only at hbuf
            match hrg : rub_go m root fuel
                ((va + min remaining (SV32_PAGE_SIZE - va % SV32_PAGE_SIZE)) % U32MOD)
                (remaining - min remaining (SV32_PAGE_SIZE - va % SV32_PAGE_SIZE)) with
            | none => rw [hrg] at hbuf; exact absurd hbuf (by simp)
            | some rest =>
              rw [hrg] at hbuf
              simp only [Option.some.injEq] at hbuf
              have hrl := hrec.2 rest hrg
              rw [← hbuf]
              simp only [List.length_append, List.length_map,
                List.length_range, hrl]
              omega

/-- C10: `read_user_bytes` returns an empty buffer for `len = 0` under every
root and pointer, mapped or not; for `len > 0` it returns `none` exactly
when the MMU walk fails at one of the page starts the range touches, and on
success the buffer holds exactly `len` bytes. -/
theorem c10_read_user_bytes (m : Mmu) (root ptr len : Nat) :
    (read_user_bytes m root ptr 0 = some []) ∧
    (0 < len →
      ((read_user_bytes m root ptr len = none ↔
        ∃ va ∈ rub_vas len ptr len, m.translate root va = none) ∧
       (∀ buf, read_user_bytes m root ptr len = some buf →
         buf.length = len))) := by
  refine ⟨by simp [read_user_bytes], ?_⟩
  intro hpos
  have hspec := rub_go_spec m root len ptr len (le_refl len)
  have hne : len ≠ 0 := Nat.pos_iff_ne_zero.mp hpos
  rw [read_user_bytes, if_neg hne]
  exact hspec

/-- C10 witness: the `read_user_bytes` characterization at a concrete
50-byte read. -/
theorem read_user_bytes_witness :
    (0 : Nat) < 50 ∧
    ((read_user_bytes witMmu 0 100 50 = none ↔
      ∃ va ∈ rub_vas 50 100 50, witMmu.translate 0 va = none) ∧
     (∀ buf, read_user_bytes witMmu 0 100 50 = some buf → buf.length = 50)) :=
  ⟨by decide, (c10_read_user_bytes witMmu 0 100 50).2 (by decide)⟩

/-- C8: the task table never exceeds 16 entries: `TaskList::push` rejects
the task (returning it in `Err`) whenever 16 tasks are stored, leaving the
table as it was, appends otherwise, and `sys_call_program` run against a
full table is a soft failure: it returns `0` to the guest with the state
untouched and no child launched - whatever the MMU and prep oracles do. -/
theorem c8_task_table (tasks : List Task) (t : Task) :
    (tasks.length ≥ MAX_TASKS → TaskList.push tasks t = .error t) ∧
    (tasks.length < MAX_TASKS → TaskList.push tasks t = .ok (tasks ++ [t])) ∧
    (∀ (impl : SyscallImpl) (m : Mmu) (args : Fin 6 → Nat)
        (regs : Fin 33 → Nat) (st : KState), st.tasks.length ≥ MAX_TASKS →
      sys_call_program impl m args regs st = (0, st, none)) := by
  refine ⟨?_, ?_, ?_⟩
  · intro h
    simp [TaskList.push, h]
  · intro h
    simp [TaskList.push, Nat.not_le.mpr h]
  · intro impl m args regs st hfull
    simp only [sys_call_program, TaskList.push, ge_iff_le, hfull, if_true,
      ite_true]
    repeat' split
    all_goals rfl

/-- C1 (amended): on a breakpoint trap completing a user task, `handle_trap`
records `last_completed_task := the task's slot` exactly when the recorded
caller resolves to the kernel slot (no caller, or caller index 0); when the
caller is another user task, `last_completed_task` is left unchanged.
`update_receipt_from_task` always takes the value, leaving it cleared. -/
theorem c1_last_completed (impl : SyscallImpl) (m : Mmu) (scause : Nat)
    (spp : Bool) (regs : Fin 33 → Nat) (st : KState) (t : Task)
    (hint : scause >>> 31 = 0) (hcode : scause % 4096 = 3)
    (hcur : st.current_task ≠ KERNEL_TASK_SLOT)
    (hget : st.tasks[st.current_task]? = some t) :
    (t.caller_task_id.getD KERNEL_TASK_SLOT = KERNEL_TASK_SLOT →
      ∀ out, handle_trap impl m scause spp regs st = some out →
        out.st.last_completed_task = some st.current_task) ∧
    (t.caller_task_id.getD KERNEL_TASK_SLOT ≠ KERNEL_TASK_SLOT →
      ∀ out, handle_trap impl m scause spp regs st = some out →
        out.st.last_completed_task = st.last_completed_task) ∧
    (∀ s : KState, (update_receipt_from_task s).last_completed_task = none) := by
  have hht : handle_trap impl m scause spp regs st
      = handle_breakpoint m spp regs st := by
    rw [handle_trap, if_neg (by simp [hint])]
    have h89 : ¬ (scause % 4096 = 8 ∨ scause % 4096 = 9) := by omega
    rw [if_neg h89, if_pos hcode]
  refine ⟨?_, ?_, ?_⟩
  · intro h out hout
    rw [hht] at hout
    rw [handle_breakpoint] at hout
    simp only [hcur, hget, h, if_true, ite_true, ne_eq, not_false_eq_true,
      ite_not] at hout
    split at hout
    · exact absurd hout (by simp)
    · rename_i ct hct
      simp only [Option.some.injEq] at hout
      rw [← hout]
  · intro h out hout
    rw [hht] at hout
    rw [handle_breakpoint] at hout
    simp only [hcur, hget, if_true, ite_true, ne_eq, not_false_eq_true,
      ite_not] at hout
    split at hout
    · exact absurd hout (by simp)
    · rename_i ct hct
      simp only [Option.some.injEq] at hout
      rw [← hout]
      simp [h]
  · intro s
    rw [update_receipt_from_task]
    split
    · rfl
    · repeat' split
      all_goals rfl

/-- C1 counterexample: a breakpoint completing user task 2 whose recorded
caller is user task 1 hands control back (the trap returns `some`), yet
`last_completed_task` stays `none` instead of being set to 2: the kernel
only records completions that return to the kernel slot. -/
theorem c1_last_completed_cex :
    cexTrapState.current_task ≠ KERNEL_TASK_SLOT ∧
    (handle_trap witImpl witMmu 3 false (fun _ => 0) cexTrapState).map
      (fun out => out.st.last_completed_task) = some none := by
  constructor
  · decide
  · decide

/-- C1 witness: the amended rule applied at a concrete kernel-caller
completion, plus the clearing effect of `update_receipt_from_task`. -/
theorem c1_last_completed_witness :
    witBpState.current_task ≠ KERNEL_TASK_SLOT ∧
    (handle_trap witImpl witMmu 3 false (fun _ => 0) witBpState).map
      (fun out => out.st.last_completed_task) = some (some 1) ∧
    (update_receipt_from_task cexTrapState).last_completed_task = none := by
  refine ⟨by decide, ?_, ?_⟩
  · have happ := (c1_last_completed witImpl witMmu 3 false (fun _ => 0)
      witBpState witTask (by decide) (by decide) (by decide) rfl).1 (by decide)
    have hsome : (handle_trap witImpl witMmu 3 false (fun _ => 0)
        witBpState).isSome = true := by decide
    match hh : handle_trap witImpl witMmu 3 false (fun _ => 0) witBpState with
    | none => rw [hh] at hsome; exact absurd hsome (by simp)
    | some out =>
      rw [Option.map_some', happ out hh]
      rfl
  · exact (c1_last_completed witImpl witMmu 3 false (fun _ => 0)
      witBpState witTask (by decide) (by decide) (by decide) rfl).2.2
        cexTrapState

theorem alloc_in_task_frame {t : Task} {size align addr : Nat} {t' : Task}
    (h : alloc_in_task t size align = some (addr, t')) :
    t'.tf = t.tf ∧ t'.addr_space = t.addr_space := by
  rw [alloc_in_task] at h
  dsimp only at h
  repeat' split at h
  all_goals first
    | (simp only [Option.some.injEq, Prod.mk.injEq] at h
       exact ⟨by rw [← h.2], by rw [← h.2]⟩)
    | exact absurd h (by simp)

theorem write_result_tf (m : Mmu) (c : Task) (r : VmResult) :
    (write_result_to_caller m c r).2.tf = c.tf := by
  rw [write_result_to_caller]
  split
  · rfl
  · rename_i addr c' halloc
    have hc' : c'.tf = c.tf := (alloc_in_task_frame halloc).1
    have hboth : ∀ (o1 o2 : Option Nat) (b : Bool),
        ((if b = true then (o1, c') else (o2, c')).2 : Task).tf = c.tf := by
      intro o1 o2 b
      cases b <;> simp [hc']
    exact hboth _ _ _

/-- C3: on task completion the caller resumes at its saved trap-frame `pc`
(which `sys_call_program` stored as the `ecall` pc plus 4) for a user
caller, and at the value in the kernel task's saved `ra` (`x1`) for the
kernel task; the caller's other saved registers are restored from its trap
frame (`a0` excepted for user callers, which receive the result pointer).
The final conjunct is the `sys_call_program` half: whenever it hands
control to a child, the caller's saved frame holds the `ecall` pc plus 4
and a copy of the saved registers. -/
theorem c3_breakpoint_resume (impl : SyscallImpl) (m : Mmu) (scause : Nat)
    (spp : Bool) (regs : Fin 33 → Nat) (st : KState) (t caller : Task)
    (cidx : Nat)
    (hint : scause >>> 31 = 0) (hcode : scause % 4096 = 3)
    (hcur : st.current_task ≠ KERNEL_TASK_SLOT)
    (hget : st.tasks[st.current_task]? = some t)
    (hcidx : t.caller_task_id.getD KERNEL_TASK_SLOT = cidx)
    (hne : cidx ≠ st.current_task)
    (hcget : st.tasks[cidx]? = some caller) :
    (cidx = KERNEL_TASK_SLOT →
      ∀ out, handle_trap impl m scause spp regs st = some out →
        out.regs 32 = caller.tf.regs 1 ∧
        ∀ i : Fin 32, out.regs i.castSucc = caller.tf.regs i) ∧
    (cidx ≠ KERNEL_TASK_SLOT →
      ∀ out, handle_trap impl m scause spp regs st = some out →
        out.regs 32 = caller.tf.pc ∧
        ∀ i : Fin 32, (i : Nat) ≠ 10 → out.regs i.castSucc = caller.tf.regs i) ∧
    (∀ (args : Fin 6 → Nat) (regs' : Fin 33 → Nat) (st' : KState)
        (ret : Nat) (st2 : KState) (idx : Nat),
      sys_call_program impl m args regs' st' = (ret, st2, some idx) →
      ∃ caller', st2.tasks[st'.current_task]? = some caller' ∧
        caller'.tf.pc = (regs' 32 + 4) % U32MOD ∧
        ∀ i : Fin 32, caller'.tf.regs i = regs' i.castSucc) := by
  have hht : handle_trap impl m scause spp regs st
      = handle_breakpoint m spp regs st := by
    rw [handle_trap, if_neg (by simp [hint])]
    have h89 : ¬ (scause % 4096 = 8 ∨ scause % 4096 = 9) := by omega
    rw [if_neg h89, if_pos hcode]
  have h32 : ¬ (((32 : Fin 33) : Nat) < 32) := by decide
  refine ⟨?_, ?_, ?_⟩
  · intro h0 out hout
    rw [hht, handle_breakpoint] at hout
    simp only [hcur, hget, hcidx, if_true, ite_true, ne_eq, not_false_eq_true,
      ite_not] at hout
    rw [List.getElem?_set_ne (Ne.symm hne), hcget] at hout
    simp only [Option.some.injEq] at hout
    rw [← hout]
    refine ⟨?_, ?_⟩
    · simp only [dif_neg h32, if_pos h0]
    · intro i
      have hlt : ((i.castSucc : Fin 33) : Nat) < 32 := i.isLt
      simp only [dif_pos hlt, if_pos h0]
      congr 1
  · intro h0 out hout
    rw [hht, handle_breakpoint] at hout
    simp only [hcur, hget, hcidx, if_true, ite_true, ne_eq, not_false_eq_true,
      ite_not] at hout
    rw [List.getElem?_set_ne (Ne.symm hne), hcget] at hout
    simp only [Option.some.injEq] at hout
    rw [← hout]
    refine ⟨?_, ?_⟩
    · simp only [dif_neg h32, if_neg h0]
      split
      · rename_i r hr
        split
        · rename_i addr ct hw
          have htf := write_result_tf m caller r
          rw [hw] at htf
          exact congrArg TrapFrame.pc htf
        · rename_i ct hw
          have htf := write_result_tf m caller r
          rw [hw] at htf
          exact congrArg TrapFrame.pc htf
      · rfl
    · intro i hi
      have hlt : ((i.castSucc : Fin 33) : Nat) < 32 := i.isLt
      simp only [dif_pos hlt, if_neg h0]
      have hfin : (⟨((i.castSucc : Fin 33) : Nat), hlt⟩ : Fin 32) = i :=
        Fin.ext (by simp)
      have hne10 : (⟨((i.castSucc : Fin 33) : Nat), hlt⟩ : Fin 32)
          ≠ (10 : Fin 32) := by
        rw [hfin]
        intro he
        apply hi
        rw [he]
        rfl
      split
      · rename_i r hr
        split
        · rename_i addr ct hw
          have htf := write_result_tf m caller r
          rw [hw] at htf
          rw [Function.update_noteq hne10, hfin,
            congrFun (congrArg TrapFrame.regs htf) i]
        · rename_i ct hw
          have htf := write_result_tf m caller r
          rw [hw] at htf
          rw [Function.update_noteq hne10, hfin,
            congrFun (congrArg TrapFrame.regs htf) i]
      · rw [Function.update_noteq hne10, hfin]
  · intro args regs' st' ret st2 idx hcall
    rw [sys_call_program] at hcall
    split at hcall
    · simp at hcall
    · split at hcall
      · simp at hcall
      · split at hcall
        · simp at hcall
        · split at hcall
          · simp at hcall
          · split at hcall
            · simp at hcall
            · split at hcall
              · simp at hcall
              · split at hcall
                · simp at hcall
                · split at hcall
                  · simp at hcall
                  · split at hcall
                    · simp at hcall
                    · rename_i tasks' hpush
                      dsimp only at hcall
                      split at hcall
                      · simp at hcall
                      · rename_i caller_task hcget2
                        rw [run_task] at hcall
                        split at hcall
                        · simp at hcall
                        · rename_i task2 hget2
                          simp only [Prod.mk.injEq] at hcall
                          have hlen : st'.current_task < tasks'.length :=
                            (List.getElem?_eq_some.mp hcget2).1
                          refine ⟨{ caller_task with
                            tf := { regs := fun i => regs' i.castSucc,
                                    pc := (regs' 32 + 4) % U32MOD } }, ?_, rfl,
                            fun i => rfl⟩
                          rw [← hcall.2.1]
                          exact List.getElem?_set_self hlen

/-- C3 witness: the kernel-caller resumption rule evaluated at the concrete
completion of task 1, whose recorded caller is the kernel slot: the resumed
pc is the kernel task's saved `ra`. -/
theorem c3_breakpoint_resume_witness :
    witBpState.current_task ≠ KERNEL_TASK_SLOT ∧
    (handle_trap witImpl witMmu 3 false (fun _ => 0) witBpState).map
      (fun out => out.regs 32) = some (witKTask.tf.regs 1) := by
  refine ⟨by decide, ?_⟩
  have happ := (c3_breakpoint_resume witImpl witMmu 3 false (fun _ => 0)
    witBpState witTask witKTask 0 (by decide) (by decide) (by decide) rfl rfl
    (by decide) rfl).1 rfl
  have hsome : (handle_trap witImpl witMmu 3 false (fun _ => 0)
      witBpState).isSome = true := by decide
  match hh : handle_trap witImpl witMmu 3 false (fun _ => 0) witBpState with
  | none => rw [hh] at hsome; exact absurd hsome (by simp)
  | some out =>
    rw [Option.map_some', (happ out hh).1]

/-- C4: an `ecall` trap (`scause` code 8 or 9) invokes the dispatcher with
the call ID from saved `x17` and the six arguments from saved `x11..x16`,
stores the dispatcher's return value in saved `x10`, advances the saved pc
by exactly 4 (mod 2^32) and touches no other saved register; a call ID not
in the dispatch table yields return value 0 and leaves the kernel state
unchanged. -/
theorem c4_handle_trap_ecall (impl : SyscallImpl) (m : Mmu) (scause : Nat)
    (spp : Bool) (regs : Fin 33 → Nat) (st : KState)
    (hint : scause >>> 31 = 0)
    (hcode : scause % 4096 = 8 ∨ scause % 4096 = 9)
    (ret : Nat) (st' : KState)
    (hdisp : dispatch_syscall impl m (regs 17)
      (fun i => regs ⟨11 + i.val, by omega⟩) regs st = some (ret, st')) :
    (∀ out, handle_trap impl m scause spp regs st = some out →
      out.regs 10 = ret ∧ out.regs 32 = (regs 32 + 4) % U32MOD ∧
      (∀ i : Fin 33, (i : Nat) ≠ 10 → (i : Nat) ≠ 32 → out.regs i = regs i) ∧
      out.st = st') ∧
    (handle_trap impl m scause spp regs st).isSome = true ∧
    (regs 17 ∉ ([SYSCALL_STORAGE_GET, SYSCALL_STORAGE_SET, SYSCALL_PANIC,
        SYSCALL_CALL_PROGRAM, SYSCALL_FIRE_EVENT, SYSCALL_ALLOC,
        SYSCALL_DEALLOC, SYSCALL_TRANSFER, SYSCALL_BALANCE,
        SYSCALL_BRK] : List Nat) →
      ret = 0 ∧ st' = st) := by
  have heq : handle_trap impl m scause spp regs st
      = some
        { regs := Function.update
            (Function.update regs 10 ret) 32 ((regs 32 + 4) % U32MOD)
          st := st'
          spp := spp
          ret_sp := Function.update
            (Function.update regs 10 ret) 32 ((regs 32 + 4) % U32MOD) 2
          ret_kind := 0 } := by
    rw [handle_trap, if_neg (by simp [hint]), if_pos hcode]
    dsimp only
    rw [hdisp]
  have hne32 : ((10 : Fin 33) : Nat) ≠ ((32 : Fin 33) : Nat) := by decide
  refine ⟨?_, ?_, ?_⟩
  · intro out hout
    rw [heq] at hout
    simp only [Option.some.injEq] at hout
    rw [← hout]
    dsimp only
    refine ⟨?_, ?_, ?_, rfl⟩
    · rw [Function.update_noteq (Fin.ne_of_val_ne hne32), Function.update_same]
    · rw [Function.update_same]
    · intro i h10 h32
      rw [Function.update_noteq (Fin.ne_of_val_ne (by simpa using h32)),
        Function.update_noteq (Fin.ne_of_val_ne (by simpa using h10))]
  · rw [heq]
    rfl
  · intro hmem
    simp only [List.mem_cons, List.not_mem_nil, or_false, not_or] at hmem
    obtain ⟨n1, n2, n3, n4, n5, n6, n7, n8, n9, n10⟩ := hmem
    rw [dispatch_syscall, if_neg n1, if_neg n2, if_neg n3, if_neg n4,
      if_neg n5, if_neg n6, if_neg n7, if_neg n8, if_neg n9, if_neg n10]
      at hdisp
    simp only [Option.some.injEq, Prod.mk.injEq] at hdisp
    exact ⟨hdisp.1.symm, hdisp.2.symm⟩

/-- C4 witness: an `ecall` with unknown ID 999 returns 0 in `a0` and
advances the saved pc from 100 to 104. -/
theorem c4_handle_trap_ecall_witness :
    ((8 : Nat) >>> 31 = 0 ∧ ((8 : Nat) % 4096 = 8 ∨ (8 : Nat) % 4096 = 9)) ∧
    (handle_trap witImpl witMmu 8 false witEcallRegs witBpState).map
      (fun out => (out.regs 10, out.regs 32)) = some (0, 104 % U32MOD) := by
  refine ⟨⟨by decide, Or.inl (by decide)⟩, ?_⟩
  have happ := c4_handle_trap_ecall witImpl witMmu 8 false witEcallRegs
    witBpState (by decide) (Or.inl (by decide)) 0 witBpState rfl
  have hsome := happ.2.1
  match hh : handle_trap witImpl witMmu 8 false witEcallRegs witBpState with
  | none => rw [hh] at hsome; exact absurd hsome (by simp)
  | some out =>
    have hf := happ.1 out hh
    rw [Option.map_some', hf.1, hf.2.1]
    rfl

/-- C8 witness: a 16-entry table rejects a push and `sys_call_program`
against it returns 0 with nothing changed. -/
theorem c8_task_table_witness :
    (List.replicate 16 witKTask).length ≥ MAX_TASKS ∧
    TaskList.push (List.replicate 16 witKTask) witTask
      = Except.error witTask ∧
    sys_call_program witImpl witMmu (fun _ => 0) (fun _ => 0) witFullState
      = (0, witFullState, none) :=
  ⟨by decide,
    (c8_task_table (List.replicate 16 witKTask) witTask).1 (by decide),
    (c8_task_table (List.replicate 16 witKTask) witTask).2.2 witImpl witMmu
      (fun _ => 0) (fun _ => 0) witFullState (by decide)⟩

theorem buildGo_spec (d : Nat → Option (Instruction × Nat)) :
    ∀ fuel pc acc l, Trace.buildGo d fuel pc acc = some l →
      ∃ tail, l = acc ++ tail ∧ tail.length ≤ fuel ∧
        consecB pc tail = true ∧
        tail.all (fun ti => is_supported ti.instr) = true ∧
        noMidEndB tail = true := by
  intro fuel
  induction fuel with
  | zero =>
      intro pc acc l h
      simp only [Trace.buildGo, Option.some.injEq] at h
      exact ⟨[], by simp [← h, consecB, noMidEndB]⟩
  | succ fuel ih =>
      intro pc acc l h
      rw [Trace.buildGo] at h
      match hd : d pc with
      | none => rw [hd] at h; exact absurd h (by simp)
      | some (instr, size) =>
        rw [hd] at h
        simp only at h
        by_cases hsup : is_supported instr
        · rw [if_neg (by simp [hsup])] at h
          by_cases hend : ends_trace instr
          · rw [if_pos hend] at h
            simp only [Option.some.injEq] at h
            refine ⟨[⟨pc, size, instr⟩], by simp [← h], by simp, ?_, ?_, ?_⟩
            · simp [consecB]
            · simp [hsup]
            · simp [noMidEndB]
          · rw [if_neg hend] at h
            obtain ⟨tail, hl, hlen, hcons, hall, hmid⟩ :=
              ih ((pc + size) % U32MOD) (acc ++ [⟨pc, size, instr⟩]) l h
            refine ⟨⟨pc, size, instr⟩ :: tail, ?_, by simp; omega, ?_, ?_, ?_⟩
            · rw [hl, List.append_assoc]
              rfl
            · simp [consecB, hcons]
            · simp [hsup, hall]
            · cases tail with
              | nil => simp [noMidEndB]
              | cons t2 rest =>
                  show (!(ends_trace instr) && noMidEndB (t2 :: rest)) = true
                  simp [hend, hmid]
        · rw [if_pos (by simp [hsup]), Option.some.injEq] at h
          exact ⟨[], by simp [← h, consecB, noMidEndB]⟩

/-- C5: every trace `Trace::build` returns starts at the requested pc,
holds between 1 and 64 instructions, all from the JIT-supported set, at
consecutive addresses (each pc is the previous pc plus the previous size,
wrapping at 2^32), and only its final instruction may be a branch, `jal` or
`jalr`. -/
theorem c5_trace_build (d : Nat → Option (Instruction × Nat))
    (start : Nat) (t : Trace) (h : Trace.build d start = some t) :
    t.start_pc = start ∧ 1 ≤ t.instrs.length ∧ t.instrs.length ≤ 64 ∧
    t.instrs.all (fun ti => is_supported ti.instr) = true ∧
    consecB start t.instrs = true ∧
    noMidEndB t.instrs = true ∧
    ∀ ti, t.instrs.head? = some ti → ti.pc = start := by
  rw [Trace.build] at h
  match hb : Trace.buildGo d TRACE_LIMIT start [] with
  | none => rw [hb] at h; exact absurd h (by simp)
  | some instrs =>
    rw [hb] at h
    simp only at h
    by_cases hemp : instrs.isEmpty
    · rw [if_pos hemp] at h
      exact absurd h (by simp)
    · rw [if_neg hemp, Option.some.injEq] at h
      obtain ⟨tail, hl, hlen, hcons, hall, hmid⟩ :=
        buildGo_spec d TRACE_LIMIT start [] instrs hb
      simp only [List.nil_append] at hl
      subst hl
      rw [← h]
      refine ⟨rfl, ?_, ?_, hall, hcons, hmid, ?_⟩
      · have : instrs ≠ [] := by
          intro he
          rw [he] at hemp
          exact hemp rfl
        cases instrs with
        | nil => exact absurd rfl this
        | cons a rest => simp
      · exact le_trans hlen (by norm_num [TRACE_LIMIT])
      · intro ti hti
        cases instrs with
        | nil => simp at hti
        | cons a rest =>
            simp only [List.head?_cons, Option.some.injEq] at hti
            rw [← hti]
            rw [consecB, Bool.and_eq_true] at hcons
            exact of_decide_eq_true hcons.1

/-- C5 witness: the trace properties evaluated on a concrete one-entry
trace ending in `jal`. -/
theorem trace_build_witness :
    Trace.build witDecode 0 = some witTrace ∧
    (witTrace.start_pc = 0 ∧ 1 ≤ witTrace.instrs.length ∧
      witTrace.instrs.length ≤ 64 ∧
      witTrace.instrs.all (fun ti => is_supported ti.instr) = true ∧
      consecB 0 witTrace.instrs = true ∧
      noMidEndB witTrace.instrs = true ∧
      ∀ ti, witTrace.instrs.head? = some ti → ti.pc = 0) :=
  ⟨by decide, c5_trace_build witDecode 0 witTrace (by decide)⟩

theorem build_none_of_firstUnsupported (d : Nat → Option (Instruction × Nat))
    (pc : Nat) (h : firstUnsupported d pc = true) :
    Trace.build d pc = none := by
  rw [Trace.build]
  have h64 : TRACE_LIMIT = 63 + 1 := rfl
  rw [h64, Trace.buildGo]
  rw [firstUnsupported] at h
  match hd : d pc with
  | none => rfl
  | some (i, sz) =>
    rw [hd] at h
    have h2 : (!is_supported i) = true := h
    rw [Bool.not_eq_true'] at h2
    simp [h2]

/-- C2 (amended): when the JIT is enabled, verbose tracing is off and the
privilege mode is user, `Jit::maybe_execute` (a) skips a key already marked
failed, returning `None` with the whole state unchanged, and (b) for an
unfailed, uncached key whose first instruction fails to decode or is
unsupported, returns `None` with the failed map, the cache and the
compile-attempt counter unchanged — the key is never marked failed on this
path — and only the key's hit counter incremented (saturating at
`u32::MAX`). -/
theorem c2_jit_no_fail_mark {E : Type} (comp : Trace → Option E)
    (runE : E → Bool) (j : JitState E) (cpu : CpuView) (mem : JitMem)
    (hen : j.enabled = true) (hv : cpu.verbose = false)
    (hp : cpu.priv_user = true) :
    (j.failed ⟨mem.current_root, cpu.pc⟩ = true →
      maybe_execute comp runE j cpu mem = (none, j)) ∧
    (j.failed ⟨mem.current_root, cpu.pc⟩ = false →
      j.cache ⟨mem.current_root, cpu.pc⟩ = none →
      firstUnsupported mem.decodeAt cpu.pc = true →
        (maybe_execute comp runE j cpu mem).1 = none ∧
        (maybe_execute comp runE j cpu mem).2.failed = j.failed ∧
        (maybe_execute comp runE j cpu mem).2.cache = j.cache ∧
        (maybe_execute comp runE j cpu mem).2.compile_attempts
          = j.compile_attempts ∧
        (maybe_execute comp runE j cpu mem).2.hits = (fun k =>
          if k = ⟨mem.current_root, cpu.pc⟩ then
            min (j.hits ⟨mem.current_root, cpu.pc⟩ + 1) (2 ^ 32 - 1)
          else j.hits k)) := by
  have hguard : ¬ (¬ j.enabled = true ∨ cpu.verbose = true ∨
      ¬ cpu.priv_user = true) := by simp [hen, hv, hp]
  constructor
  · intro hf
    rw [maybe_execute, if_neg hguard]
    dsimp only
    rw [if_pos hf]
  · intro hf hc hfu
    have hbuild := build_none_of_firstUnsupported mem.decodeAt cpu.pc hfu
    have hmain : maybe_execute comp runE j cpu mem =
        (none, { j with
          hits := fun k =>
            if k = ⟨mem.current_root, cpu.pc⟩ then
              min (j.hits ⟨mem.current_root, cpu.pc⟩ + 1) (2 ^ 32 - 1)
            else j.hits k }) := by
      rw [maybe_execute, if_neg hguard]
      dsimp only
      rw [if_neg (by simp [hf]), hc]
      dsimp only [record_hit]
      rw [hbuild]
      split
      · rfl
      · rfl
    rw [hmain]
    exact ⟨rfl, rfl, rfl, rfl, rfl⟩

/-- C2 counterexample: with hot threshold 1 the key (2, 0x8000) goes hot on
this very call, its first instruction `ecall` is unsupported, yet after
`maybe_execute` returns `None` the key is NOT marked failed — refuting
"the key is marked failed exactly once" for the unsupported-first-
instruction path. -/
theorem c2_jit_no_fail_mark_cex :
    firstUnsupported cexJitMem.decodeAt cexCpu.pc = true ∧
    (record_hit cexJit ⟨cexJitMem.current_root, cexCpu.pc⟩).1 = true ∧
    (maybe_execute (fun _ => some ()) (fun _ => true)
      cexJit cexCpu cexJitMem).1 = none ∧
    (maybe_execute (fun _ => some ()) (fun _ => true)
      cexJit cexCpu cexJitMem).2.failed
      ⟨cexJitMem.current_root, cexCpu.pc⟩ = false := by
  refine ⟨by decide, by decide, ?_, ?_⟩ <;> decide

/-- C2 witness: the amended statement instantiated at the concrete JIT
state, CPU view and memory above, every hypothesis discharged. -/
theorem c2_jit_no_fail_mark_witness :
    (cexJit.failed ⟨cexJitMem.current_root, cexCpu.pc⟩ = true →
      maybe_execute (fun _ => some ()) (fun _ => true) cexJit cexCpu cexJitMem
        = (none, cexJit)) ∧
    (cexJit.failed ⟨cexJitMem.current_root, cexCpu.pc⟩ = false →
      cexJit.cache ⟨cexJitMem.current_root, cexCpu.pc⟩ = none →
      firstUnsupported cexJitMem.decodeAt cexCpu.pc = true →
        (maybe_execute (fun _ => some ()) (fun _ => true)
          cexJit cexCpu cexJitMem).1 = none ∧
        (maybe_execute (fun _ => some ()) (fun _ => true)
          cexJit cexCpu cexJitMem).2.failed = cexJit.failed ∧
        (maybe_execute (fun _ => some ()) (fun _ => true)
          cexJit cexCpu cexJitMem).2.cache = cexJit.cache ∧
        (maybe_execute (fun _ => some ()) (fun _ => true)
          cexJit cexCpu cexJitMem).2.compile_attempts
          = cexJit.compile_attempts ∧
        (maybe_execute (fun _ => some ()) (fun _ => true)
          cexJit cexCpu cexJitMem).2.hits = (fun k =>
          if k = ⟨cexJitMem.current_root, cexCpu.pc⟩ then
            min (cexJit.hits ⟨cexJitMem.current_root, cexCpu.pc⟩ + 1)
              (2 ^ 32 - 1)
          else cexJit.hits k)) :=
  c2_jit_no_fail_mark (fun _ => some ()) (fun _ => true) cexJit cexCpu
    cexJitMem rfl rfl rfl

end AVM
